import Mathlib

/-!
Shallow embedding of the geometry column utilities (`daft-functions/src/geo/utils.rs`):
the WKB/WKT codec over nullable columns, the variable-length geometry builder `GH`,
the nullable geometry iterator, and the unary/binary operation dispatcher.
External collaborators (the spatial encoding library and the geometry algorithms
engine) are modelled as parameters: a `SpatialCodec` record of encode/decode
functions and a `GeoEngine` record of per-geometry numeric/boolean/geometric
functions.  Bytes are modelled as `Nat`, the i64 offsets as `Int`.
-/

/-- A geometry value: the tagged variants of the external geometry library that
this core inspects (the `Intersection` arm matches on polygon / multi-polygon),
with opaque payloads. -/
inductive Geometry where
  | point (p : Nat)
  | lineString (p : Nat)
  | polygon (p : Nat)
  | multiPolygon (p : Nat)
  | geometryCollection (p : Nat)
deriving DecidableEq

/-- The external spatial encoding library: WKB/WKT writers (total) and
readers (fallible). -/
structure SpatialCodec where
  toWkb : Geometry → List Nat
  toWkt : Geometry → String
  wkbDecode : List Nat → Option Geometry
  wktDecode : String → Option Geometry

/-- The error type of the surrounding engine; the codec and dispatcher only
construct these two variants. -/
inductive DaftError where
  | ValueError (msg : String)
  | TypeError (msg : String)
deriving DecidableEq

/-- The closed operation tag set. -/
inductive GeoOperation where
  | Area
  | ConvexHull
  | Distance
  | Intersects
  | Intersection
  | Contains
deriving DecidableEq

/-- The Debug rendering of an operation tag, as used in the unsupported-op
message. -/
def GeoOperation.debugStr : GeoOperation → String
  | .Area => "Area"
  | .ConvexHull => "ConvexHull"
  | .Distance => "Distance"
  | .Intersects => "Intersects"
  | .Intersection => "Intersection"
  | .Contains => "Contains"

/-- The logical data types that appear at this core's boundary. -/
inductive DataType where
  | Binary
  | Utf8
  | Geometry
  | Float64
  | Boolean
deriving DecidableEq

/-- Display rendering of a data type, used in type-error messages. -/
def DataType.render : DataType → String
  | .Binary => "Binary"
  | .Utf8 => "Utf8"
  | .Geometry => "Geometry"
  | .Float64 => "Float64"
  | .Boolean => "Boolean"

/-- A geometry column: the nullable list-of-bytes physical layout (flat byte
buffer, i64 offsets, validity bitmap) plus the column name. -/
structure GeometryArray where
  name : String
  geo_vec : List Nat
  offsets : List Int
  validity : List Bool
deriving DecidableEq

/-- A series, tagged by its data type.  `F` is the carrier of 64-bit floats,
kept abstract since this core never inspects float values. -/
inductive Series (F : Type) where
  | binary (name : String) (rows : List (Option (List Nat)))
  | utf8 (name : String) (rows : List (Option String))
  | geometry (arr : GeometryArray)
  | float64 (name : String) (rows : List (Option F))
  | boolean (name : String) (rows : List (Option Bool))

/-- The data type of a series. -/
def Series.dataType {F : Type} : Series F → DataType
  | .binary _ _ => .Binary
  | .utf8 _ _ => .Utf8
  | .geometry _ => .Geometry
  | .float64 _ _ => .Float64
  | .boolean _ _ => .Boolean

/-- The name of a series. -/
def Series.name {F : Type} : Series F → String
  | .binary n _ => n
  | .utf8 n _ => n
  | .geometry a => a.name
  | .float64 n _ => n
  | .boolean n _ => n

/-- The row count of a series. -/
def Series.rowCount {F : Type} : Series F → Nat
  | .binary _ rows => rows.length
  | .utf8 _ rows => rows.length
  | .geometry a => a.validity.length
  | .float64 _ rows => rows.length
  | .boolean _ rows => rows.length

/-- The `Series::geometry()` downcast: succeeds exactly on geometry series. -/
def Series.geometrySeries {F : Type} : Series F → Except DaftError GeometryArray
  | .geometry a => .ok a
  | s => .error (.TypeError ("Expected geometry, got " ++ s.dataType.render))

/-- The last element of an offsets vector (`offsets.last().unwrap()`; offsets
are never empty in the builder). -/
def lastOffset : List Int → Int
  | [] => 0
  | [x] => x
  | _ :: x :: xs => lastOffset (x :: xs)

/-- The variable-length geometry builder: packed bytes, offsets, validity. -/
structure GH where
  geo_vec : List Nat
  offsets : List Int
  validity : List Bool
deriving DecidableEq

/-- A fresh builder: empty buffer and bitmap, offsets seeded with 0
(capacity hints do not affect contents). -/
def GH.new : GH := { geo_vec := [], offsets := [0], validity := [] }

/-- The builder's push: append the WKB encoding of the value, a new offset
equal to the previous one plus the encoded length, and a valid bit. -/
def GH.push (c : SpatialCodec) (gh : GH) (geo : Geometry) : GH :=
  let geo_bytes := c.toWkb geo
  { geo_vec := gh.geo_vec ++ geo_bytes
    offsets := gh.offsets ++ [lastOffset gh.offsets + (geo_bytes.length : Int)]
    validity := gh.validity ++ [true] }

/-- The builder's null: repeat the previous offset and push an invalid bit;
no bytes are written. -/
def GH.null (gh : GH) : GH :=
  { geo_vec := gh.geo_vec
    offsets := gh.offsets ++ [lastOffset gh.offsets]
    validity := gh.validity ++ [false] }

/-- The offsets check performed by the arrow offsets-buffer constructor:
nonempty and non-decreasing. -/
def isNonDecreasing : List Int → Bool
  | [] => true
  | [_] => true
  | x :: y :: xs => decide (x ≤ y) && isNonDecreasing (y :: xs)

/-- Finalisation (`gh_to`): wrap the accumulated buffers into a geometry
column; the offsets buffer constructor rejects empty or decreasing offsets. -/
def gh_to (name : String) (g : GH) : Except DaftError GeometryArray :=
  if !g.offsets.isEmpty && isNonDecreasing g.offsets then
    .ok { name := name, geo_vec := g.geo_vec, offsets := g.offsets, validity := g.validity }
  else
    .error (.ValueError "invalid offsets")

/-- Offset lookup with the out-of-range default 0 (in-bounds in all uses). -/
def offAt (l : List Int) (i : Nat) : Int := l.getD i 0

/-- The row count of a geometry column. -/
def GeometryArray.rowCount (a : GeometryArray) : Nat := a.validity.length

/-- The physical byte slice of row `i`: the range between offsets `i` and
`i + 1` of the flat buffer. -/
def GeometryArray.rowSlice (a : GeometryArray) (i : Nat) : List Nat :=
  ((a.geo_vec.drop (offAt a.offsets i).toNat).take (offAt a.offsets (i + 1) - offAt a.offsets i).toNat)

/-- The `get` of the physical list array: `none` for an invalid row, the byte
slice for a valid one. -/
def GeometryArray.get (a : GeometryArray) (i : Nat) : Option (List Nat) :=
  if a.validity.getD i false then some (a.rowSlice i) else none

/-- All rows of a geometry column, as the iterator scans them. -/
def GeometryArray.rows (a : GeometryArray) : List (Option (List Nat)) :=
  (List.range a.rowCount).map a.get

/-- Decode each scanned row; the iterator unwraps the per-row WKB decode, so a
decode failure on any scanned row is a panic, modelled as the outer `none`. -/
def decodeRowsOpt (c : SpatialCodec) : List (Option (List Nat)) → Option (List (Option Geometry))
  | [] => some []
  | none :: rest => (decodeRowsOpt c rest).map (fun t => none :: t)
  | some bytes :: rest =>
    match c.wkbDecode bytes with
    | some g => (decodeRowsOpt c rest).map (fun t => some g :: t)
    | none => none

/-- The nullable geometry iterator, fully evaluated: one optional geometry per
row, or `none` if the unwrap of a row decode panics. -/
def iterItems (c : SpatialCodec) (a : GeometryArray) : Option (List (Option Geometry)) :=
  decodeRowsOpt c a.rows

/-- The decode loop over a binary column: push decoded rows, null out nulls;
on a malformed row either abort with the WKB decode error or push a null. -/
def decodeLoopWkb (c : SpatialCodec) (raise_error_on_failure : Bool) :
    List (Option (List Nat)) → GH → Except DaftError GH
  | [], gh => .ok gh
  | none :: rest, gh => decodeLoopWkb c raise_error_on_failure rest gh.null
  | some bytes :: rest, gh =>
    match c.wkbDecode bytes with
    | some geo => decodeLoopWkb c raise_error_on_failure rest (gh.push c geo)
    | none =>
      if raise_error_on_failure then
        .error (.ValueError "Could not decode WKB")
      else
        decodeLoopWkb c raise_error_on_failure rest gh.null

/-- The decode loop over a text column; the abort message names the offending
text. -/
def decodeLoopWkt (c : SpatialCodec) (raise_error_on_failure : Bool) :
    List (Option String) → GH → Except DaftError GH
  | [], gh => .ok gh
  | none :: rest, gh => decodeLoopWkt c raise_error_on_failure rest gh.null
  | some x :: rest, gh =>
    match c.wktDecode x with
    | some geo => decodeLoopWkt c raise_error_on_failure rest (gh.push c geo)
    | none =>
      if raise_error_on_failure then
        .error (.ValueError ("Could not decode WKT text " ++ x))
      else
        decodeLoopWkt c raise_error_on_failure rest gh.null

/-- The codec's decode entry point (`decode_series`). -/
def decode_series {F : Type} (c : SpatialCodec) (s : Series F)
    (raise_error_on_failure : Bool) : Except DaftError (Series F) :=
  match s with
  | .binary name rows =>
    (decodeLoopWkb c raise_error_on_failure rows GH.new).bind fun gh =>
      (gh_to name gh).map Series.geometry
  | .utf8 name rows =>
    (decodeLoopWkt c raise_error_on_failure rows GH.new).bind fun gh =>
      (gh_to name gh).map Series.geometry
  | other =>
    .error (.TypeError ("GeoDecode can only decode Binary or Utf8 arrays, got "
      ++ other.dataType.render))

/-- Encode a geometry column to a text column (`to_wkt`); each present row is
written as WKT, nulls stay null.  The outer `none` is the iterator panic. -/
def to_wkt {F : Type} (c : SpatialCodec) (s : Series F) :
    Option (Except DaftError (Series F)) :=
  match s.geometrySeries with
  | .error e => some (.error e)
  | .ok geo => (iterItems c geo).map fun items =>
      .ok (.utf8 geo.name (items.map (Option.map c.toWkt)))

/-- Encode a geometry column to a binary column (`to_wkb`). -/
def to_wkb {F : Type} (c : SpatialCodec) (s : Series F) :
    Option (Except DaftError (Series F)) :=
  match s.geometrySeries with
  | .error e => some (.error e)
  | .ok geo => (iterItems c geo).map fun items =>
      .ok (.binary geo.name (items.map (Option.map c.toWkb)))

/-- The codec's encode entry point (`encode_series`). -/
def encode_series {F : Type} (c : SpatialCodec) (s : Series F) (text : Bool) :
    Option (Except DaftError (Series F)) :=
  match text with
  | true => to_wkt c s
  | false => to_wkb c s

/-- A scalar result column: name plus nullable values, as assembled from a
primitive or boolean arrow array. -/
structure ScalarSeries (T : Type) where
  name : String
  rows : List (Option T)

/-- Elementwise unary-to-scalar template (`geo_unary_to_scalar`): map the
external function over present rows; nulls stay null. -/
def geo_unary_to_scalar {F T : Type} (c : SpatialCodec) (s : Series F)
    (op_fn : Geometry → T) : Option (Except DaftError (ScalarSeries T)) :=
  match s.geometrySeries with
  | .error e => some (.error e)
  | .ok geo_array => (iterItems c geo_array).map fun items =>
      .ok { name := geo_array.name, rows := items.map (Option.map op_fn) }

/-- Elementwise unary-to-geometry template (`geo_unary_to_geo`): push the
image of each present row into a fresh builder, null out nulls, finalize. -/
def geo_unary_to_geo {F : Type} (c : SpatialCodec) (s : Series F)
    (op_fn : Geometry → Geometry) : Option (Except DaftError GeometryArray) :=
  match s.geometrySeries with
  | .error e => some (.error e)
  | .ok geo_array => (iterItems c geo_array).map fun items =>
      gh_to geo_array.name (items.foldl (fun gh g =>
        match g with
        | some g => gh.push c (op_fn g)
        | none => gh.null) GH.new)

/-- Elementwise binary-to-scalar template (`geo_binary_to_scalar`): zip the
two iterators (truncating to the shorter), apply the external function when
both operands are present, null otherwise; named after the left operand. -/
def geo_binary_to_scalar {F T : Type} (c : SpatialCodec) (lhs rhs : Series F)
    (op_fn : Geometry → Geometry → T) : Option (Except DaftError (ScalarSeries T)) :=
  match lhs.geometrySeries with
  | .error e => some (.error e)
  | .ok lhs_array =>
    match rhs.geometrySeries with
    | .error e => some (.error e)
    | .ok rhs_array =>
      (iterItems c lhs_array).bind fun litems =>
      (iterItems c rhs_array).map fun ritems =>
        .ok { name := lhs_array.name
              rows := (litems.zip ritems).map fun p =>
                match p with
                | (some l, some r) => some (op_fn l r)
                | _ => none }

/-- Elementwise binary-to-boolean template (`geo_binary_to_bool`). -/
def geo_binary_to_bool {F : Type} (c : SpatialCodec) (lhs rhs : Series F)
    (op_fn : Geometry → Geometry → Bool) : Option (Except DaftError (ScalarSeries Bool)) :=
  match lhs.geometrySeries with
  | .error e => some (.error e)
  | .ok lhs_array =>
    match rhs.geometrySeries with
    | .error e => some (.error e)
    | .ok rhs_array =>
      (iterItems c lhs_array).bind fun litems =>
      (iterItems c rhs_array).map fun ritems =>
        .ok { name := lhs_array.name
              rows := (litems.zip ritems).map fun p =>
                match p with
                | (some l, some r) => some (op_fn l r)
                | _ => none }

/-- Elementwise binary-to-optional-geometry template (`geo_binary_to_geo`):
when both operands are present the external function may still yield no
result, which becomes a null row. -/
def geo_binary_to_geo {F : Type} (c : SpatialCodec) (lhs rhs : Series F)
    (op_fn : Geometry → Geometry → Option Geometry) :
    Option (Except DaftError GeometryArray) :=
  match lhs.geometrySeries with
  | .error e => some (.error e)
  | .ok lhs_array =>
    match rhs.geometrySeries with
    | .error e => some (.error e)
    | .ok rhs_array =>
      (iterItems c lhs_array).bind fun litems =>
      (iterItems c rhs_array).map fun ritems =>
        gh_to lhs_array.name ((litems.zip ritems).foldl (fun gh p =>
          match p with
          | (some l, some r) =>
            match op_fn l r with
            | some g => gh.push c g
            | none => gh.null
          | _ => gh.null) GH.new)

/-- The external geometry algorithms engine: the per-value functions the
dispatcher wires to the templates.  Polygon/polygon and multi-polygon
intersections return a multi-polygon payload. -/
structure GeoEngine (F : Type) where
  unsigned_area : Geometry → F
  convex_hull : Geometry → Geometry
  euclidean_distance : Geometry → Geometry → F
  intersectsFn : Geometry → Geometry → Bool
  containsFn : Geometry → Geometry → Bool
  poly_intersection : Nat → Nat → Nat
  multi_poly_intersection : Nat → Nat → Nat

/-- The unary dispatcher (`geo_unary_dispatch`): Area and ConvexHull are
wired; every other tag is an unsupported-op error naming the tag. -/
def geo_unary_dispatch {F : Type} (c : SpatialCodec) (E : GeoEngine F)
    (s : Series F) (op : GeoOperation) : Option (Except DaftError (Series F)) :=
  match op with
  | .Area => (geo_unary_to_scalar c s E.unsigned_area).map
      (Except.map fun sc => Series.float64 sc.name sc.rows)
  | .ConvexHull => (geo_unary_to_geo c s E.convex_hull).map
      (Except.map Series.geometry)
  | _ => some (.error (.ValueError ("unsupported op " ++ op.debugStr)))

/-- The binary dispatcher (`geo_binary_dispatch`): Distance, Intersects,
Contains and Intersection are wired; Intersection is defined only on
polygon/polygon and multi-polygon/multi-polygon pairs, every other pairing
yields no result for the row. -/
def geo_binary_dispatch {F : Type} (c : SpatialCodec) (E : GeoEngine F)
    (lhs rhs : Series F) (op : GeoOperation) : Option (Except DaftError (Series F)) :=
  match op with
  | .Distance => (geo_binary_to_scalar c lhs rhs E.euclidean_distance).map
      (Except.map fun sc => Series.float64 sc.name sc.rows)
  | .Intersects => (geo_binary_to_bool c lhs rhs E.intersectsFn).map
      (Except.map fun sc => Series.boolean sc.name sc.rows)
  | .Contains => (geo_binary_to_bool c lhs rhs E.containsFn).map
      (Except.map fun sc => Series.boolean sc.name sc.rows)
  | .Intersection => (geo_binary_to_geo c lhs rhs (fun l r =>
      match l, r with
      | Geometry.polygon a, Geometry.polygon b =>
        some (Geometry.multiPolygon (E.poly_intersection a b))
      | Geometry.multiPolygon a, Geometry.multiPolygon b =>
        some (Geometry.multiPolygon (E.multi_poly_intersection a b))
      | _, _ => none)).map (Except.map Series.geometry)
  | _ => some (.error (.ValueError ("unsupported op " ++ op.debugStr)))

/-- A single builder action: push a value or push a null. -/
inductive BuildAct where
  | push (g : Geometry)
  | null
deriving DecidableEq

/-- One builder step. -/
def GH.step (c : SpatialCodec) (gh : GH) : BuildAct → GH
  | .push g => gh.push c g
  | .null => gh.null

/-- Run a sequence of builder actions from a fresh builder. -/
def runBuilder (c : SpatialCodec) (acts : List BuildAct) : GH :=
  acts.foldl (GH.step c) GH.new

/-- The bytes an action contributes to the buffer. -/
def actBytes (c : SpatialCodec) : BuildAct → List Nat
  | .push g => c.toWkb g
  | .null => []

/-- Whether an action is a push. -/
def BuildAct.isPush : BuildAct → Bool
  | .push _ => true
  | .null => false

/-- The physical row an action produces. -/
def actSlice (c : SpatialCodec) : BuildAct → Option (List Nat)
  | .push g => some (c.toWkb g)
  | .null => none

/-- The byte-buffer length after the first `i` actions. -/
def prefixBytes (c : SpatialCodec) (acts : List BuildAct) (i : Nat) : Nat :=
  (((acts.take i).map (actBytes c)).flatten).length

/-- A concrete injective spatial codec on the abstract geometry values, used
to instantiate the external library in concrete runs. -/
def natCodec : SpatialCodec where
  toWkb g :=
    match g with
    | .point p => [0, p]
    | .lineString p => [1, p]
    | .polygon p => [2, p]
    | .multiPolygon p => [3, p]
    | .geometryCollection p => [4, p]
  toWkt g :=
    match g with
    | .point p => "POINT " ++ toString p
    | .lineString p => "LINESTRING " ++ toString p
    | .polygon p => "POLYGON " ++ toString p
    | .multiPolygon p => "MULTIPOLYGON " ++ toString p
    | .geometryCollection p => "GEOMETRYCOLLECTION " ++ toString p
  wkbDecode l :=
    match l with
    | [0, p] => some (.point p)
    | [1, p] => some (.lineString p)
    | [2, p] => some (.polygon p)
    | [3, p] => some (.multiPolygon p)
    | [4, p] => some (.geometryCollection p)
    | _ => none
  wktDecode s := if s = "PT" then some (.point 7) else none

/-- A concrete geometry algorithms engine over an integer float carrier. -/
def natEngine : GeoEngine Int where
  unsigned_area _ := 1
  convex_hull g := g
  euclidean_distance _ _ := 0
  intersectsFn _ _ := true
  containsFn _ _ := false
  poly_intersection a b := a + b
  multi_poly_intersection a b := a * b

/-- A concrete three-row geometry column: polygon, null, point. -/
def arrEx : GeometryArray :=
  { name := "g"
    geo_vec := [2, 5, 0, 9]
    offsets := [0, 2, 2, 4]
    validity := [true, false, true] }

/-- A concrete second operand for binary runs: point, multi-polygon. -/
def arrEx2 : GeometryArray :=
  { name := "h"
    geo_vec := [0, 1, 3, 6]
    offsets := [0, 2, 4]
    validity := [true, true] }

/-- A concrete three-row operand for Intersection runs: polygon, multi-polygon,
point. -/
def arrEx3 : GeometryArray :=
  { name := "k"
    geo_vec := [2, 1, 3, 6, 0, 4]
    offsets := [0, 2, 4, 6]
    validity := [true, true, true] }

/-- The per-pair function the dispatcher wires for Intersection: defined on
polygon/polygon and multi-polygon/multi-polygon pairs (yielding a
multi-polygon), no result otherwise. -/
def intersectionFn {F : Type} (E : GeoEngine F) : Geometry → Geometry → Option Geometry :=
  fun l r =>
    match l, r with
    | Geometry.polygon a, Geometry.polygon b =>
      some (Geometry.multiPolygon (E.poly_intersection a b))
    | Geometry.multiPolygon a, Geometry.multiPolygon b =>
      some (Geometry.multiPolygon (E.multi_poly_intersection a b))
    | _, _ => none

/-- Finalisation as a total function: the column `gh_to` returns on success. -/
def GH.finalize (gh : GH) (name : String) : GeometryArray :=
  { name := name, geo_vec := gh.geo_vec, offsets := gh.offsets, validity := gh.validity }

/-- The re-decoded value of an action under a codec round-trip map. -/
def actDecoded (rt : Geometry → Geometry) : BuildAct → Option Geometry
  | .push g => some (rt g)
  | .null => none

/-- The builder action performed by the binary decode loop for one row. -/
def decodeActWkb (c : SpatialCodec) : Option (List Nat) → BuildAct
  | none => .null
  | some b =>
    match c.wkbDecode b with
    | some g => .push g
    | none => .null

/-- The builder action performed by the text decode loop for one row. -/
def decodeActWkt (c : SpatialCodec) : Option String → BuildAct
  | none => .null
  | some x =>
    match c.wktDecode x with
    | some g => .push g
    | none => .null

/-- The builder action the unary-to-geometry template performs for one row. -/
def unaryAct (op_fn : Geometry → Geometry) : Option Geometry → BuildAct
  | some g => .push (op_fn g)
  | none => .null

/-- The builder action the binary-to-geometry template performs for one row
pair. -/
def binaryAct (op_fn : Geometry → Geometry → Option Geometry) :
    Option Geometry × Option Geometry → BuildAct
  | (some l, some r) =>
    match op_fn l r with
    | some g => .push g
    | none => .null
  | _ => .null

/-- The row value the binary scalar/boolean templates produce for one row
pair: apply the function when both operands are present, null otherwise. -/
def pairApply {T : Type} (op_fn : Geometry → Geometry → T) :
    Option Geometry × Option Geometry → Option T
  | (some l, some r) => some (op_fn l r)
  | _ => none

theorem runBuilder_append_single (c : SpatialCodec) (acts : List BuildAct) (a : BuildAct) :
    runBuilder c (acts ++ [a]) = GH.step c (runBuilder c acts) a := by
  simp [runBuilder, List.foldl_append]

theorem lastOffset_append_single (l : List Int) (x : Int) :
    lastOffset (l ++ [x]) = x := by
  induction l with
  | nil => rfl
  | cons y ys ih =>
    cases ys with
    | nil => rfl
    | cons z zs => simpa [lastOffset] using ih

theorem runBuilder_geo_vec (c : SpatialCodec) (acts : List BuildAct) :
    (runBuilder c acts).geo_vec = (acts.map (actBytes c)).flatten := by
  induction acts using List.reverseRecOn with
  | nil => rfl
  | append_singleton as a ih =>
    rw [runBuilder_append_single]
    cases a <;> simp [GH.step, GH.push, GH.null, ih, actBytes]

theorem runBuilder_validity (c : SpatialCodec) (acts : List BuildAct) :
    (runBuilder c acts).validity = acts.map BuildAct.isPush := by
  induction acts using List.reverseRecOn with
  | nil => rfl
  | append_singleton as a ih =>
    rw [runBuilder_append_single]
    cases a <;> simp [GH.step, GH.push, GH.null, ih, BuildAct.isPush]

theorem prefixBytes_succ (c : SpatialCodec) (acts : List BuildAct) (m : Nat) :
    prefixBytes c acts (m + 1) =
      prefixBytes c acts m + (acts[m]?.elim [] (actBytes c)).length := by
  unfold prefixBytes
  rw [List.take_succ, List.map_append, List.flatten_append, List.length_append]
  cases h : acts[m]? <;> simp [h]

theorem prefixBytes_append_single_of_le (c : SpatialCodec) (acts : List BuildAct)
    (a : BuildAct) (i : Nat) (h : i ≤ acts.length) :
    prefixBytes c (acts ++ [a]) i = prefixBytes c acts i := by
  unfold prefixBytes
  rw [List.take_append_of_le_length h]

theorem prefixBytes_last (c : SpatialCodec) (acts : List BuildAct) :
    prefixBytes c acts acts.length = ((acts.map (actBytes c)).flatten).length := by
  unfold prefixBytes
  rw [List.take_length]

theorem runBuilder_offsets (c : SpatialCodec) (acts : List BuildAct) :
    (runBuilder c acts).offsets =
      (List.range (acts.length + 1)).map (fun i => (prefixBytes c acts i : Int)) := by
  induction acts using List.reverseRecOn with
  | nil => rfl
  | append_singleton as a ih =>
    rw [runBuilder_append_single]
    have hlast : lastOffset ((List.range (as.length + 1)).map
        (fun i => (prefixBytes c as i : Int))) = (prefixBytes c as as.length : Int) := by
      rw [List.range_succ, List.map_append]
      exact lastOffset_append_single _ _
    have hcongr : (List.range (as.length + 1)).map
        (fun i => (prefixBytes c (as ++ [a]) i : Int)) =
        (List.range (as.length + 1)).map (fun i => (prefixBytes c as i : Int)) := by
      refine List.map_congr_left fun i hi => ?_
      rw [prefixBytes_append_single_of_le c as a i (by
        have := List.mem_range.mp hi
        omega)]
    have hnew : prefixBytes c (as ++ [a]) (as.length + 1) =
        prefixBytes c as as.length + (actBytes c a).length := by
      rw [prefixBytes_succ]
      congr 1
      · exact prefixBytes_append_single_of_le c as a as.length (le_refl _)
      · simp
    cases a
    all_goals
      simp only [GH.step, GH.push, GH.null, ih, hlast]
      rw [List.length_append, List.length_singleton, List.range_succ (n := as.length + 1),
        List.map_append, hcongr]
      congr 1
      simp [hnew, prefixBytes_last, runBuilder_geo_vec, actBytes]

theorem isNonDecreasing_eq_true_iff (l : List Int) :
    isNonDecreasing l = true ↔ List.Chain' (· ≤ ·) l := by
  induction l with
  | nil => simp [isNonDecreasing]
  | cons x xs ih =>
    cases xs with
    | nil => simp [isNonDecreasing]
    | cons y ys =>
      rw [isNonDecreasing, Bool.and_eq_true, decide_eq_true_iff, List.chain'_cons, ih]

theorem prefixBytes_le_succ (c : SpatialCodec) (acts : List BuildAct) (m : Nat) :
    prefixBytes c acts m ≤ prefixBytes c acts (m + 1) := by
  rw [prefixBytes_succ]
  omega

theorem isNonDecreasing_runBuilder (c : SpatialCodec) (acts : List BuildAct) :
    isNonDecreasing (runBuilder c acts).offsets = true := by
  rw [isNonDecreasing_eq_true_iff, runBuilder_offsets, List.chain'_map,
    List.chain'_range_succ]
  intro m _
  exact_mod_cast prefixBytes_le_succ c acts m

theorem runBuilder_offsets_ne_nil (c : SpatialCodec) (acts : List BuildAct) :
    (runBuilder c acts).offsets ≠ [] := by
  rw [runBuilder_offsets]
  simp

theorem gh_to_runBuilder (c : SpatialCodec) (acts : List BuildAct) (name : String) :
    gh_to name (runBuilder c acts) = .ok ((runBuilder c acts).finalize name) := by
  rw [gh_to]
  rw [if_pos]
  · rfl
  · rw [Bool.and_eq_true, isNonDecreasing_runBuilder]
    refine ⟨?_, rfl⟩
    simp [List.isEmpty_iff, runBuilder_offsets_ne_nil]

theorem finalize_offAt (c : SpatialCodec) (acts : List BuildAct) (name : String)
    (i : Nat) (h : i ≤ acts.length) :
    offAt ((runBuilder c acts).finalize name).offsets i = (prefixBytes c acts i : Int) := by
  show offAt (runBuilder c acts).offsets i = _
  rw [runBuilder_offsets, offAt, List.getD_eq_getElem?_getD, List.getElem?_map,
    List.getElem?_range (by omega : i < acts.length + 1)]
  rfl

theorem finalize_rowCount (c : SpatialCodec) (acts : List BuildAct) (name : String) :
    ((runBuilder c acts).finalize name).rowCount = acts.length := by
  show (runBuilder c acts).validity.length = acts.length
  rw [runBuilder_validity, List.length_map]

theorem finalize_rowSlice (c : SpatialCodec) (acts : List BuildAct) (name : String)
    (i : Nat) (h : i < acts.length) :
    ((runBuilder c acts).finalize name).rowSlice i = actBytes c (acts.getD i BuildAct.null) := by
  have hbytes : ((runBuilder c acts).finalize name).geo_vec = (acts.map (actBytes c)).flatten :=
    runBuilder_geo_vec c acts
  have hsome : acts[i]? = some acts[i] := List.getElem?_eq_getElem h
  rw [GeometryArray.rowSlice, hbytes, finalize_offAt c acts name i (by omega),
    finalize_offAt c acts name (i + 1) (by omega)]
  have hsub : ((prefixBytes c acts (i + 1) : Int) - (prefixBytes c acts i : Int)).toNat =
      (actBytes c acts[i]).length := by
    rw [prefixBytes_succ, hsome]
    simp
  rw [hsub, Int.toNat_natCast]
  have hL : i < (acts.map (actBytes c)).length := by simpa using h
  have hsplit : (acts.map (actBytes c)).flatten =
      ((acts.map (actBytes c)).take i).flatten ++
        ((acts.map (actBytes c))[i] ++ ((acts.map (actBytes c)).drop (i + 1)).flatten) := by
    conv_lhs => rw [← List.take_append_drop i (acts.map (actBytes c))]
    rw [List.drop_eq_getElem_cons hL]
    simp
  have hpre : ((acts.map (actBytes c)).take i).flatten.length = prefixBytes c acts i := by
    rw [← List.map_take, prefixBytes]
  have hgi : (acts.map (actBytes c))[i] = actBytes c acts[i] := List.getElem_map _
  rw [hsplit, List.drop_left' hpre, hgi, List.take_left' rfl, List.getD_eq_getElem _ _ h]

theorem finalize_validity_getD (c : SpatialCodec) (acts : List BuildAct) (name : String)
    (i : Nat) (h : i < acts.length) :
    ((runBuilder c acts).finalize name).validity.getD i false =
      (acts.getD i BuildAct.null).isPush := by
  show (runBuilder c acts).validity.getD i false = _
  rw [runBuilder_validity, List.getD_eq_getElem _ _ (by simpa using h),
    List.getElem_map, List.getD_eq_getElem _ _ h]

theorem finalize_validity_getD_of_ge (c : SpatialCodec) (acts : List BuildAct) (name : String)
    (i : Nat) (h : acts.length ≤ i) :
    ((runBuilder c acts).finalize name).validity.getD i false = false := by
  show (runBuilder c acts).validity.getD i false = _
  rw [List.getD_eq_getElem?_getD, List.getElem?_eq_none (by rw [runBuilder_validity]; simpa)]
  rfl

theorem finalize_get_of_lt (c : SpatialCodec) (acts : List BuildAct) (name : String)
    (i : Nat) (h : i < acts.length) :
    ((runBuilder c acts).finalize name).get i = actSlice c (acts.getD i BuildAct.null) := by
  rw [GeometryArray.get, finalize_validity_getD c acts name i h]
  cases hact : acts.getD i BuildAct.null with
  | push g =>
    rw [if_pos (show (BuildAct.push g).isPush = true from rfl),
      finalize_rowSlice c acts name i h, hact]
    rfl
  | null =>
    rw [if_neg (by simp [BuildAct.isPush])]
    rfl

theorem finalize_get_of_ge (c : SpatialCodec) (acts : List BuildAct) (name : String)
    (i : Nat) (h : acts.length ≤ i) :
    ((runBuilder c acts).finalize name).get i = none := by
  rw [GeometryArray.get, if_neg (by rw [finalize_validity_getD_of_ge c acts name i h]; simp)]

theorem range_map_getD {α β : Type} (l : List α) (d : α) (f : α → β) :
    (List.range l.length).map (fun i => f (l.getD i d)) = l.map f := by
  induction l with
  | nil => rfl
  | cons a as ih =>
    show (List.range (as.length + 1)).map _ = _
    rw [List.range_succ_eq_map, List.map_cons, List.map_map]
    refine congrArg₂ _ rfl ?_
    rw [← ih]
    exact List.map_congr_left fun i _ => rfl

theorem finalize_rows (c : SpatialCodec) (acts : List BuildAct) (name : String) :
    ((runBuilder c acts).finalize name).rows = acts.map (actSlice c) := by
  rw [GeometryArray.rows, finalize_rowCount]
  rw [show (List.range acts.length).map ((runBuilder c acts).finalize name).get =
      (List.range acts.length).map (fun i => actSlice c (acts.getD i BuildAct.null)) from
    List.map_congr_left fun i hi =>
      finalize_get_of_lt c acts name i (List.mem_range.mp hi)]
  exact range_map_getD acts BuildAct.null (actSlice c)

theorem decodeRowsOpt_length (c : SpatialCodec) (rows : List (Option (List Nat)))
    (items : List (Option Geometry)) (h : decodeRowsOpt c rows = some items) :
    items.length = rows.length := by
  induction rows generalizing items with
  | nil =>
    rw [decodeRowsOpt] at h
    cases h
    rfl
  | cons r rest ih =>
    cases r with
    | none =>
      rw [decodeRowsOpt] at h
      cases htl : decodeRowsOpt c rest with
      | none => rw [htl] at h; cases h
      | some t =>
        rw [htl] at h
        cases h
        simpa using ih t htl
    | some bytes =>
      rw [decodeRowsOpt] at h
      cases hd : c.wkbDecode bytes with
      | none => rw [hd] at h; cases h
      | some g =>
        rw [hd] at h
        cases htl : decodeRowsOpt c rest with
        | none => rw [htl] at h; cases h
        | some t =>
          rw [htl] at h
          cases h
          simpa using ih t htl

theorem decodeRowsOpt_getElem (c : SpatialCodec) (rows : List (Option (List Nat)))
    (items : List (Option Geometry)) (h : decodeRowsOpt c rows = some items) (i : Nat) :
    items[i]? = rows[i]?.map (fun ob => ob.bind c.wkbDecode) := by
  induction rows generalizing items i with
  | nil =>
    rw [decodeRowsOpt] at h
    cases h
    simp
  | cons r rest ih =>
    cases r with
    | none =>
      rw [decodeRowsOpt] at h
      cases htl : decodeRowsOpt c rest with
      | none => rw [htl] at h; cases h
      | some t =>
        rw [htl] at h
        cases h
        cases i with
        | zero => simp
        | succ j => simpa using ih t htl j
    | some bytes =>
      rw [decodeRowsOpt] at h
      cases hd : c.wkbDecode bytes with
      | none => rw [hd] at h; cases h
      | some g =>
        rw [hd] at h
        cases htl : decodeRowsOpt c rest with
        | none => rw [htl] at h; cases h
        | some t =>
          rw [htl] at h
          cases h
          cases i with
          | zero => simp [hd]
          | succ j => simpa using ih t htl j

theorem decodeRowsOpt_map_actSlice (c : SpatialCodec) (rt : Geometry → Geometry)
    (hrt : ∀ g, c.wkbDecode (c.toWkb g) = some (rt g)) (acts : List BuildAct) :
    decodeRowsOpt c (acts.map (actSlice c)) = some (acts.map (actDecoded rt)) := by
  induction acts with
  | nil => rfl
  | cons a as ih =>
    cases a with
    | push g => simp [actSlice, actDecoded, decodeRowsOpt, hrt g, ih]
    | null => simp [actSlice, actDecoded, decodeRowsOpt, ih]

theorem iterItems_finalize (c : SpatialCodec) (rt : Geometry → Geometry)
    (hrt : ∀ g, c.wkbDecode (c.toWkb g) = some (rt g)) (acts : List BuildAct) (name : String) :
    iterItems c ((runBuilder c acts).finalize name) = some (acts.map (actDecoded rt)) := by
  rw [iterItems, finalize_rows, decodeRowsOpt_map_actSlice c rt hrt]

theorem decodeLoopWkb_false (c : SpatialCodec) (rows : List (Option (List Nat))) (gh : GH) :
    decodeLoopWkb c false rows gh =
      .ok (rows.foldl (fun gh r => GH.step c gh (decodeActWkb c r)) gh) := by
  induction rows generalizing gh with
  | nil => rfl
  | cons r rest ih =>
    cases r with
    | none => rw [decodeLoopWkb, ih]; rfl
    | some bytes =>
      cases hd : c.wkbDecode bytes with
      | some g =>
        rw [decodeLoopWkb, hd]
        show decodeLoopWkb c false rest (gh.push c g) = _
        rw [ih]
        simp [decodeActWkb, hd, GH.step]
      | none =>
        rw [decodeLoopWkb, hd]
        show decodeLoopWkb c false rest gh.null = _
        rw [ih]
        simp [decodeActWkb, hd, GH.step]

theorem decodeLoopWkt_false (c : SpatialCodec) (rows : List (Option String)) (gh : GH) :
    decodeLoopWkt c false rows gh =
      .ok (rows.foldl (fun gh r => GH.step c gh (decodeActWkt c r)) gh) := by
  induction rows generalizing gh with
  | nil => rfl
  | cons r rest ih =>
    cases r with
    | none => rw [decodeLoopWkt, ih]; rfl
    | some x =>
      cases hd : c.wktDecode x with
      | some g =>
        rw [decodeLoopWkt, hd]
        show decodeLoopWkt c false rest (gh.push c g) = _
        rw [ih]
        simp [decodeActWkt, hd, GH.step]
      | none =>
        rw [decodeLoopWkt, hd]
        show decodeLoopWkt c false rest gh.null = _
        rw [ih]
        simp [decodeActWkt, hd, GH.step]

theorem decodeLoopWkb_true_error (c : SpatialCodec) (rows : List (Option (List Nat)))
    (gh : GH) (b : List Nat) (hmem : some b ∈ rows) (hbad : c.wkbDecode b = none) :
    decodeLoopWkb c true rows gh = .error (.ValueError "Could not decode WKB") := by
  induction rows generalizing gh with
  | nil => cases hmem
  | cons r rest ih =>
    cases r with
    | none =>
      rw [decodeLoopWkb]
      exact ih _ (by simpa using hmem)
    | some bytes =>
      rw [decodeLoopWkb]
      cases hd : c.wkbDecode bytes with
      | some g =>
        have : some b ∈ rest := by
          rcases List.mem_cons.mp hmem with heq | htl
          · cases heq
            rw [hbad] at hd
            cases hd
          · exact htl
        exact ih _ this
      | none => rfl

theorem decodeLoopWkt_true_error (c : SpatialCodec) (rows : List (Option String)) (gh : GH)
    (x : String) (hmem : some x ∈ rows) (hbad : c.wktDecode x = none) :
    ∃ y, some y ∈ rows ∧ c.wktDecode y = none ∧
      decodeLoopWkt c true rows gh = .error (.ValueError ("Could not decode WKT text " ++ y)) := by
  induction rows generalizing gh with
  | nil => cases hmem
  | cons r rest ih =>
    cases r with
    | none =>
      rw [decodeLoopWkt]
      obtain ⟨y, hy1, hy2, hy3⟩ := ih gh.null (by simpa using hmem)
      exact ⟨y, List.mem_cons_of_mem _ hy1, hy2, hy3⟩
    | some z =>
      rw [decodeLoopWkt]
      cases hd : c.wktDecode z with
      | some g =>
        have : some x ∈ rest := by
          rcases List.mem_cons.mp hmem with heq | htl
          · cases heq
            rw [hbad] at hd
            cases hd
          · exact htl
        obtain ⟨y, hy1, hy2, hy3⟩ := ih _ this
        exact ⟨y, List.mem_cons_of_mem _ hy1, hy2, hy3⟩
      | none => exact ⟨z, List.mem_cons_self _ _, hd, rfl⟩

theorem decodeLoopWkb_ok_of_decodable (c : SpatialCodec) (raise : Bool)
    (rows : List (Option (List Nat))) (gh : GH)
    (h : ∀ b, some b ∈ rows → (c.wkbDecode b).isSome) :
    decodeLoopWkb c raise rows gh =
      .ok (rows.foldl (fun gh r => GH.step c gh (decodeActWkb c r)) gh) := by
  induction rows generalizing gh with
  | nil => rfl
  | cons r rest ih =>
    cases r with
    | none =>
      rw [decodeLoopWkb, ih _ fun b hb => h b (List.mem_cons_of_mem _ hb)]
      rfl
    | some bytes =>
      cases hd : c.wkbDecode bytes with
      | some g =>
        rw [decodeLoopWkb, hd]
        show decodeLoopWkb c raise rest (gh.push c g) = _
        rw [ih _ fun b hb => h b (List.mem_cons_of_mem _ hb)]
        simp [decodeActWkb, hd, GH.step]
      | none =>
        have := h bytes (List.mem_cons_self _ _)
        rw [hd] at this
        cases this

theorem decodeLoopWkt_ok_of_decodable (c : SpatialCodec) (raise : Bool)
    (rows : List (Option String)) (gh : GH)
    (h : ∀ x, some x ∈ rows → (c.wktDecode x).isSome) :
    decodeLoopWkt c raise rows gh =
      .ok (rows.foldl (fun gh r => GH.step c gh (decodeActWkt c r)) gh) := by
  induction rows generalizing gh with
  | nil => rfl
  | cons r rest ih =>
    cases r with
    | none =>
      rw [decodeLoopWkt, ih _ fun x hx => h x (List.mem_cons_of_mem _ hx)]
      rfl
    | some x =>
      cases hd : c.wktDecode x with
      | some g =>
        rw [decodeLoopWkt, hd]
        show decodeLoopWkt c raise rest (gh.push c g) = _
        rw [ih _ fun y hy => h y (List.mem_cons_of_mem _ hy)]
        simp [decodeActWkt, hd, GH.step]
      | none =>
        have := h x (List.mem_cons_self _ _)
        rw [hd] at this
        cases this

theorem foldl_step_map {α : Type} (c : SpatialCodec) (f : α → BuildAct) (l : List α) :
    runBuilder c (l.map f) = l.foldl (fun gh r => GH.step c gh (f r)) GH.new := by
  rw [runBuilder, List.foldl_map]

theorem decode_series_binary_false {F : Type} (c : SpatialCodec) (name : String)
    (rows : List (Option (List Nat))) :
    decode_series (F := F) c (.binary name rows) false =
      .ok (.geometry ((runBuilder c (rows.map (decodeActWkb c))).finalize name)) := by
  rw [decode_series, decodeLoopWkb_false, ← foldl_step_map]
  show ((gh_to _ (runBuilder c _)).map Series.geometry : Except DaftError (Series F)) = _
  rw [gh_to_runBuilder]
  rfl

theorem decode_series_utf8_false {F : Type} (c : SpatialCodec) (name : String)
    (rows : List (Option String)) :
    decode_series (F := F) c (.utf8 name rows) false =
      .ok (.geometry ((runBuilder c (rows.map (decodeActWkt c))).finalize name)) := by
  rw [decode_series, decodeLoopWkt_false, ← foldl_step_map]
  show ((gh_to _ (runBuilder c _)).map Series.geometry : Except DaftError (Series F)) = _
  rw [gh_to_runBuilder]
  rfl

theorem decode_series_binary_ok {F : Type} (c : SpatialCodec) (raise : Bool) (name : String)
    (rows : List (Option (List Nat))) (h : ∀ b, some b ∈ rows → (c.wkbDecode b).isSome) :
    decode_series (F := F) c (.binary name rows) raise =
      .ok (.geometry ((runBuilder c (rows.map (decodeActWkb c))).finalize name)) := by
  rw [decode_series, decodeLoopWkb_ok_of_decodable c raise rows GH.new h, ← foldl_step_map]
  show ((gh_to _ (runBuilder c _)).map Series.geometry : Except DaftError (Series F)) = _
  rw [gh_to_runBuilder]
  rfl

theorem decode_series_utf8_ok {F : Type} (c : SpatialCodec) (raise : Bool) (name : String)
    (rows : List (Option String)) (h : ∀ x, some x ∈ rows → (c.wktDecode x).isSome) :
    decode_series (F := F) c (.utf8 name rows) raise =
      .ok (.geometry ((runBuilder c (rows.map (decodeActWkt c))).finalize name)) := by
  rw [decode_series, decodeLoopWkt_ok_of_decodable c raise rows GH.new h, ← foldl_step_map]
  show ((gh_to _ (runBuilder c _)).map Series.geometry : Except DaftError (Series F)) = _
  rw [gh_to_runBuilder]
  rfl

theorem geo_unary_to_scalar_eq {F T : Type} (c : SpatialCodec) (arr : GeometryArray)
    (items : List (Option Geometry)) (op_fn : Geometry → T)
    (h : iterItems c arr = some items) :
    geo_unary_to_scalar (F := F) c (.geometry arr) op_fn =
      some (.ok { name := arr.name, rows := items.map (Option.map op_fn) }) := by
  rw [geo_unary_to_scalar]
  show (iterItems c arr).map _ = _
  rw [h]
  rfl

theorem geo_unary_to_geo_eq {F : Type} (c : SpatialCodec) (arr : GeometryArray)
    (items : List (Option Geometry)) (op_fn : Geometry → Geometry)
    (h : iterItems c arr = some items) :
    geo_unary_to_geo (F := F) c (.geometry arr) op_fn =
      some (.ok ((runBuilder c (items.map (unaryAct op_fn))).finalize arr.name)) := by
  rw [geo_unary_to_geo]
  show (iterItems c arr).map _ = _
  rw [h, Option.map_some']
  have hf : (fun gh g => match g with
      | some g => GH.push c gh (op_fn g)
      | none => gh.null) = fun gh g => GH.step c gh (unaryAct op_fn g) := by
    funext gh g
    cases g <;> rfl
  rw [hf, ← foldl_step_map, gh_to_runBuilder]

theorem geo_binary_to_scalar_eq {F T : Type} (c : SpatialCodec) (la ra : GeometryArray)
    (litems ritems : List (Option Geometry)) (op_fn : Geometry → Geometry → T)
    (hl : iterItems c la = some litems) (hr : iterItems c ra = some ritems) :
    geo_binary_to_scalar (F := F) c (.geometry la) (.geometry ra) op_fn =
      some (.ok { name := la.name, rows := (litems.zip ritems).map (pairApply op_fn) }) := by
  rw [geo_binary_to_scalar]
  show ((iterItems c la).bind fun litems => (iterItems c ra).map _) = _
  rw [hl, hr, Option.some_bind, Option.map_some']
  have hf : (fun p : Option Geometry × Option Geometry => match p with
      | (some l, some r) => some (op_fn l r)
      | _ => none) = pairApply op_fn := by
    funext p
    rcases p with ⟨_ | l, _ | r⟩ <;> rfl
  exact congrArg (fun f => some (Except.ok
    ({ name := la.name, rows := (litems.zip ritems).map f } : ScalarSeries T))) hf

theorem geo_binary_to_bool_eq {F : Type} (c : SpatialCodec) (la ra : GeometryArray)
    (litems ritems : List (Option Geometry)) (op_fn : Geometry → Geometry → Bool)
    (hl : iterItems c la = some litems) (hr : iterItems c ra = some ritems) :
    geo_binary_to_bool (F := F) c (.geometry la) (.geometry ra) op_fn =
      some (.ok { name := la.name, rows := (litems.zip ritems).map (pairApply op_fn) }) := by
  rw [geo_binary_to_bool]
  show ((iterItems c la).bind fun litems => (iterItems c ra).map _) = _
  rw [hl, hr, Option.some_bind, Option.map_some']
  have hf : (fun p : Option Geometry × Option Geometry => match p with
      | (some l, some r) => some (op_fn l r)
      | _ => none) = pairApply op_fn := by
    funext p
    rcases p with ⟨_ | l, _ | r⟩ <;> rfl
  exact congrArg (fun f => some (Except.ok
    ({ name := la.name, rows := (litems.zip ritems).map f } : ScalarSeries Bool))) hf

theorem geo_binary_to_geo_eq {F : Type} (c : SpatialCodec) (la ra : GeometryArray)
    (litems ritems : List (Option Geometry)) (op_fn : Geometry → Geometry → Option Geometry)
    (hl : iterItems c la = some litems) (hr : iterItems c ra = some ritems) :
    geo_binary_to_geo (F := F) c (.geometry la) (.geometry ra) op_fn =
      some (.ok ((runBuilder c ((litems.zip ritems).map (binaryAct op_fn))).finalize la.name)) := by
  rw [geo_binary_to_geo]
  show ((iterItems c la).bind fun litems => (iterItems c ra).map _) = _
  rw [hl, hr, Option.some_bind, Option.map_some']
  have hf : (fun gh (p : Option Geometry × Option Geometry) => match p with
      | (some l, some r) =>
        match op_fn l r with
        | some g => GH.push c gh g
        | none => gh.null
      | _ => gh.null) = fun gh p => GH.step c gh (binaryAct op_fn p) := by
    funext gh p
    rcases p with ⟨_ | l, _ | r⟩
    · rfl
    · rfl
    · rfl
    · show (match op_fn l r with
        | some g => GH.push c gh g
        | none => gh.null) = GH.step c gh (binaryAct op_fn (some l, some r))
      cases hop : op_fn l r <;> simp [binaryAct, GH.step, hop]
  rw [hf, ← foldl_step_map, gh_to_runBuilder]

theorem rows_length (a : GeometryArray) : a.rows.length = a.rowCount := by
  rw [GeometryArray.rows, List.length_map, List.length_range]

theorem rows_getElem (a : GeometryArray) (i : Nat) (h : i < a.rowCount) :
    a.rows[i]? = some (a.get i) := by
  rw [GeometryArray.rows, List.getElem?_map, List.getElem?_range h]
  rfl

theorem iterItems_length (c : SpatialCodec) (a : GeometryArray)
    (items : List (Option Geometry)) (h : iterItems c a = some items) :
    items.length = a.rowCount :=
  (decodeRowsOpt_length c a.rows items h).trans (rows_length a)

theorem iterItems_null (c : SpatialCodec) (a : GeometryArray)
    (items : List (Option Geometry)) (i : Nat) (h : iterItems c a = some items)
    (hi : i < a.rowCount) (hn : a.get i = none) : items[i]? = some none := by
  rw [decodeRowsOpt_getElem c a.rows items h i, rows_getElem a i hi, hn]
  rfl

theorem iterItems_valid (c : SpatialCodec) (a : GeometryArray)
    (items : List (Option Geometry)) (i : Nat) (b : List Nat)
    (h : iterItems c a = some items) (hi : i < a.rowCount) (hb : a.get i = some b) :
    items[i]? = some (c.wkbDecode b) := by
  rw [decodeRowsOpt_getElem c a.rows items h i, rows_getElem a i hi, hb]
  rfl

theorem getD_none_of_le {α : Type} (l : List (Option α)) (i : Nat) (h : l.length ≤ i) :
    l.getD i none = none := by
  rw [List.getD_eq_getElem?_getD, List.getElem?_eq_none h]
  rfl

theorem getD_map_opt {α β : Type} (l : List (Option α)) (f : α → β) (i : Nat) :
    (l.map (Option.map f)).getD i none = Option.map f (l.getD i none) := by
  rw [List.getD_eq_getElem?_getD, List.getD_eq_getElem?_getD, List.getElem?_map]
  cases l[i]? <;> rfl

theorem iterItems_getD_none (c : SpatialCodec) (a : GeometryArray)
    (items : List (Option Geometry)) (i : Nat) (h : iterItems c a = some items)
    (hn : a.get i = none) : items.getD i none = none := by
  by_cases hi : i < a.rowCount
  · rw [List.getD_eq_getElem?_getD, iterItems_null c a items i h hi hn]
    rfl
  · exact getD_none_of_le _ _ (by rw [iterItems_length c a items h]; omega)

theorem geometrySeries_ok {F : Type} (s : Series F) (a : GeometryArray)
    (h : s.geometrySeries = .ok a) : s = .geometry a := by
  cases s with
  | geometry a2 =>
    rw [Series.geometrySeries] at h
    cases h
    rfl
  | binary n rows => exact Except.noConfusion h
  | utf8 n rows => exact Except.noConfusion h
  | float64 n rows => exact Except.noConfusion h
  | boolean n rows => exact Except.noConfusion h

theorem zip_getElem?_some {α β : Type} (l1 : List α) (l2 : List β) (i : Nat) (a : α) (b : β)
    (h1 : l1[i]? = some a) (h2 : l2[i]? = some b) : (l1.zip l2)[i]? = some (a, b) :=
  List.getElem?_zip_eq_some.mpr ⟨h1, h2⟩

theorem geo_unary_to_scalar_none {F T : Type} (c : SpatialCodec) (arr : GeometryArray)
    (op_fn : Geometry → T) (h : iterItems c arr = none) :
    geo_unary_to_scalar (F := F) c (.geometry arr) op_fn = none := by
  rw [geo_unary_to_scalar]
  show (iterItems c arr).map _ = _
  rw [h]
  rfl

theorem geo_unary_to_geo_none {F : Type} (c : SpatialCodec) (arr : GeometryArray)
    (op_fn : Geometry → Geometry) (h : iterItems c arr = none) :
    geo_unary_to_geo (F := F) c (.geometry arr) op_fn = none := by
  rw [geo_unary_to_geo]
  show (iterItems c arr).map _ = _
  rw [h]
  rfl

theorem geo_binary_to_scalar_none_l {F T : Type} (c : SpatialCodec) (la ra : GeometryArray)
    (op_fn : Geometry → Geometry → T) (h : iterItems c la = none) :
    geo_binary_to_scalar (F := F) c (.geometry la) (.geometry ra) op_fn = none := by
  rw [geo_binary_to_scalar]
  show ((iterItems c la).bind fun litems => (iterItems c ra).map _) = _
  rw [h]
  rfl

theorem geo_binary_to_scalar_none_r {F T : Type} (c : SpatialCodec) (la ra : GeometryArray)
    (litems : List (Option Geometry)) (op_fn : Geometry → Geometry → T)
    (hl : iterItems c la = some litems) (h : iterItems c ra = none) :
    geo_binary_to_scalar (F := F) c (.geometry la) (.geometry ra) op_fn = none := by
  rw [geo_binary_to_scalar]
  show ((iterItems c la).bind fun litems => (iterItems c ra).map _) = _
  rw [hl, Option.some_bind, h]
  rfl

theorem geo_binary_to_bool_none_l {F : Type} (c : SpatialCodec) (la ra : GeometryArray)
    (op_fn : Geometry → Geometry → Bool) (h : iterItems c la = none) :
    geo_binary_to_bool (F := F) c (.geometry la) (.geometry ra) op_fn = none := by
  rw [geo_binary_to_bool]
  show ((iterItems c la).bind fun litems => (iterItems c ra).map _) = _
  rw [h]
  rfl

theorem geo_binary_to_bool_none_r {F : Type} (c : SpatialCodec) (la ra : GeometryArray)
    (litems : List (Option Geometry)) (op_fn : Geometry → Geometry → Bool)
    (hl : iterItems c la = some litems) (h : iterItems c ra = none) :
    geo_binary_to_bool (F := F) c (.geometry la) (.geometry ra) op_fn = none := by
  rw [geo_binary_to_bool]
  show ((iterItems c la).bind fun litems => (iterItems c ra).map _) = _
  rw [hl, Option.some_bind, h]
  rfl

theorem geo_binary_to_geo_none_l {F : Type} (c : SpatialCodec) (la ra : GeometryArray)
    (op_fn : Geometry → Geometry → Option Geometry) (h : iterItems c la = none) :
    geo_binary_to_geo (F := F) c (.geometry la) (.geometry ra) op_fn = none := by
  rw [geo_binary_to_geo]
  show ((iterItems c la).bind fun litems => (iterItems c ra).map _) = _
  rw [h]
  rfl

theorem geo_binary_to_geo_none_r {F : Type} (c : SpatialCodec) (la ra : GeometryArray)
    (litems : List (Option Geometry)) (op_fn : Geometry → Geometry → Option Geometry)
    (hl : iterItems c la = some litems) (h : iterItems c ra = none) :
    geo_binary_to_geo (F := F) c (.geometry la) (.geometry ra) op_fn = none := by
  rw [geo_binary_to_geo]
  show ((iterItems c la).bind fun litems => (iterItems c ra).map _) = _
  rw [hl, Option.some_bind, h]
  rfl

theorem some_ok_inj {ε α : Type} {x y : α}
    (h : (some (.ok x) : Option (Except ε α)) = some (.ok y)) : x = y :=
  Except.ok.inj (Option.some.inj h)

theorem pairApply_none_left {T : Type} (f : Geometry → Geometry → T) (y : Option Geometry) :
    pairApply f (none, y) = none := by
  cases y <;> rfl

theorem pairApply_none_right {T : Type} (f : Geometry → Geometry → T) (x : Option Geometry) :
    pairApply f (x, none) = none := by
  cases x <;> rfl

theorem binaryAct_none_left (f : Geometry → Geometry → Option Geometry) (y : Option Geometry) :
    binaryAct f (none, y) = .null := by
  cases y <;> rfl

theorem binaryAct_none_right (f : Geometry → Geometry → Option Geometry) (x : Option Geometry) :
    binaryAct f (x, none) = .null := by
  cases x <;> rfl

theorem zip_getElem_eq {α β : Type} (l1 : List α) (l2 : List β) (i : Nat)
    (h : i < (l1.zip l2).length) (h1 : i < l1.length) (h2 : i < l2.length) :
    (l1.zip l2)[i] = (l1[i], l2[i]) := by
  have hz : (l1.zip l2)[i]? = some (l1[i], l2[i]) :=
    zip_getElem?_some l1 l2 i _ _ (List.getElem?_eq_getElem h1) (List.getElem?_eq_getElem h2)
  rw [List.getElem?_eq_getElem h] at hz
  exact Option.some.inj hz

/-- C1: null propagation.  For every wired execution template, a null operand
row produces a null result row: the unary scalar/geometry templates map a null
input row at index i to a null output row at i, and the binary
scalar/boolean/geometry templates map a row where either operand is null to a
null output row. -/
theorem claim_C1 (F T : Type) (c : SpatialCodec) (i : Nat) :
    (∀ (s : Series F) (arr : GeometryArray) (op_fn : Geometry → T) (out : ScalarSeries T),
      s.geometrySeries = .ok arr → geo_unary_to_scalar c s op_fn = some (.ok out) →
      arr.get i = none → out.rows.getD i none = none) ∧
    (∀ (s : Series F) (arr : GeometryArray) (op_fn : Geometry → Geometry) (out : GeometryArray),
      s.geometrySeries = .ok arr → geo_unary_to_geo c s op_fn = some (.ok out) →
      arr.get i = none → out.get i = none) ∧
    (∀ (lhs rhs : Series F) (la ra : GeometryArray) (op_fn : Geometry → Geometry → T)
      (out : ScalarSeries T),
      lhs.geometrySeries = .ok la → rhs.geometrySeries = .ok ra →
      geo_binary_to_scalar c lhs rhs op_fn = some (.ok out) →
      la.get i = none ∨ ra.get i = none → out.rows.getD i none = none) ∧
    (∀ (lhs rhs : Series F) (la ra : GeometryArray) (op_fn : Geometry → Geometry → Bool)
      (out : ScalarSeries Bool),
      lhs.geometrySeries = .ok la → rhs.geometrySeries = .ok ra →
      geo_binary_to_bool c lhs rhs op_fn = some (.ok out) →
      la.get i = none ∨ ra.get i = none → out.rows.getD i none = none) ∧
    (∀ (lhs rhs : Series F) (la ra : GeometryArray)
      (op_fn : Geometry → Geometry → Option Geometry) (out : GeometryArray),
      lhs.geometrySeries = .ok la → rhs.geometrySeries = .ok ra →
      geo_binary_to_geo c lhs rhs op_fn = some (.ok out) →
      la.get i = none ∨ ra.get i = none → out.get i = none) := by
  refine ⟨?_, ?_, ?_, ?_, ?_⟩
  · intro s arr op_fn out hgs hrun hnull
    obtain rfl := geometrySeries_ok s arr hgs
    cases hit : iterItems c arr with
    | none =>
      rw [geo_unary_to_scalar_none c arr op_fn hit] at hrun
      cases hrun
    | some items =>
      rw [geo_unary_to_scalar_eq c arr items op_fn hit] at hrun
      obtain rfl := some_ok_inj hrun
      rw [getD_map_opt, iterItems_getD_none c arr items i hit hnull]
      rfl
  · intro s arr op_fn out hgs hrun hnull
    obtain rfl := geometrySeries_ok s arr hgs
    cases hit : iterItems c arr with
    | none =>
      rw [geo_unary_to_geo_none c arr op_fn hit] at hrun
      cases hrun
    | some items =>
      rw [geo_unary_to_geo_eq c arr items op_fn hit] at hrun
      obtain rfl := some_ok_inj hrun
      by_cases hi : i < items.length
      · have hacts : i < (items.map (unaryAct op_fn)).length := by simpa using hi
        rw [finalize_get_of_lt c _ arr.name i hacts,
          List.getD_eq_getElem _ _ hacts, List.getElem_map]
        have hitem : items.getD i none = none := iterItems_getD_none c arr items i hit hnull
        rw [List.getD_eq_getElem _ _ hi] at hitem
        rw [hitem]
        rfl
      · exact finalize_get_of_ge c _ arr.name i (by simpa using not_lt.mp hi)
  · intro lhs rhs la ra op_fn out hl hr hrun hnulls
    obtain rfl := geometrySeries_ok lhs la hl
    obtain rfl := geometrySeries_ok rhs ra hr
    cases hitl : iterItems c la with
    | none =>
      rw [geo_binary_to_scalar_none_l c la ra op_fn hitl] at hrun
      cases hrun
    | some litems =>
      cases hitr : iterItems c ra with
      | none =>
        rw [geo_binary_to_scalar_none_r c la ra litems op_fn hitl hitr] at hrun
        cases hrun
      | some ritems =>
        rw [geo_binary_to_scalar_eq c la ra litems ritems op_fn hitl hitr] at hrun
        obtain rfl := some_ok_inj hrun
        by_cases hi : i < (litems.zip ritems).length
        · have hzl : i < litems.length := by rw [List.length_zip] at hi; omega
          have hzr : i < ritems.length := by rw [List.length_zip] at hi; omega
          rw [List.getD_eq_getElem _ _ (by simpa using hi), List.getElem_map,
            zip_getElem_eq litems ritems i hi hzl hzr]
          rcases hnulls with hn | hn
          · have h2 := iterItems_null c la litems i hitl
              (by rw [← iterItems_length c la litems hitl]; exact hzl) hn
            rw [List.getElem?_eq_getElem hzl] at h2
            rw [Option.some.inj h2]
            exact pairApply_none_left op_fn _
          · have h2 := iterItems_null c ra ritems i hitr
              (by rw [← iterItems_length c ra ritems hitr]; exact hzr) hn
            rw [List.getElem?_eq_getElem hzr] at h2
            rw [Option.some.inj h2]
            exact pairApply_none_right op_fn _
        · exact getD_none_of_le _ _ (by simpa using not_lt.mp hi)
  · intro lhs rhs la ra op_fn out hl hr hrun hnulls
    obtain rfl := geometrySeries_ok lhs la hl
    obtain rfl := geometrySeries_ok rhs ra hr
    cases hitl : iterItems c la with
    | none =>
      rw [geo_binary_to_bool_none_l c la ra op_fn hitl] at hrun
      cases hrun
    | some litems =>
      cases hitr : iterItems c ra with
      | none =>
        rw [geo_binary_to_bool_none_r c la ra litems op_fn hitl hitr] at hrun
        cases hrun
      | some ritems =>
        rw [geo_binary_to_bool_eq c la ra litems ritems op_fn hitl hitr] at hrun
        obtain rfl := some_ok_inj hrun
        by_cases hi : i < (litems.zip ritems).length
        · have hzl : i < litems.length := by rw [List.length_zip] at hi; omega
          have hzr : i < ritems.length := by rw [List.length_zip] at hi; omega
          rw [List.getD_eq_getElem _ _ (by simpa using hi), List.getElem_map,
            zip_getElem_eq litems ritems i hi hzl hzr]
          rcases hnulls with hn | hn
          · have h2 := iterItems_null c la litems i hitl
              (by rw [← iterItems_length c la litems hitl]; exact hzl) hn
            rw [List.getElem?_eq_getElem hzl] at h2
            rw [Option.some.inj h2]
            exact pairApply_none_left op_fn _
          · have h2 := iterItems_null c ra ritems i hitr
              (by rw [← iterItems_length c ra ritems hitr]; exact hzr) hn
            rw [List.getElem?_eq_getElem hzr] at h2
            rw [Option.some.inj h2]
            exact pairApply_none_right op_fn _
        · exact getD_none_of_le _ _ (by simpa using not_lt.mp hi)
  · intro lhs rhs la ra op_fn out hl hr hrun hnulls
    obtain rfl := geometrySeries_ok lhs la hl
    obtain rfl := geometrySeries_ok rhs ra hr
    cases hitl : iterItems c la with
    | none =>
      rw [geo_binary_to_geo_none_l c la ra op_fn hitl] at hrun
      cases hrun
    | some litems =>
      cases hitr : iterItems c ra with
      | none =>
        rw [geo_binary_to_geo_none_r c la ra litems op_fn hitl hitr] at hrun
        cases hrun
      | some ritems =>
        rw [geo_binary_to_geo_eq c la ra litems ritems op_fn hitl hitr] at hrun
        obtain rfl := some_ok_inj hrun
        by_cases hi : i < (litems.zip ritems).length
        · have hzl : i < litems.length := by rw [List.length_zip] at hi; omega
          have hzr : i < ritems.length := by rw [List.length_zip] at hi; omega
          have hacts : i < ((litems.zip ritems).map (binaryAct op_fn)).length := by
            simpa using hi
          rw [finalize_get_of_lt c _ la.name i hacts,
            List.getD_eq_getElem _ _ hacts, List.getElem_map,
            zip_getElem_eq litems ritems i hi hzl hzr]
          rcases hnulls with hn | hn
          · have h2 := iterItems_null c la litems i hitl
              (by rw [← iterItems_length c la litems hitl]; exact hzl) hn
            rw [List.getElem?_eq_getElem hzl] at h2
            rw [Option.some.inj h2, binaryAct_none_left op_fn _]
            rfl
          · have h2 := iterItems_null c ra ritems i hitr
              (by rw [← iterItems_length c ra ritems hitr]; exact hzr) hn
            rw [List.getElem?_eq_getElem hzr] at h2
            rw [Option.some.inj h2, binaryAct_none_right op_fn _]
            rfl
        · exact finalize_get_of_ge c _ la.name i (by simpa using not_lt.mp hi)

/-- Witness for C1: the five templates run on concrete columns, with the null
propagated at row 1. -/
theorem claim_C1_witness :
    (({ name := "g", rows := [some 0, none, some 0] } : ScalarSeries Int).rows.getD 1 none
        = none) ∧
    ((⟨"g", [2, 5, 0, 9], [0, 2, 2, 4], [true, false, true]⟩ : GeometryArray).get 1 = none) ∧
    (({ name := "g", rows := [some 0, none] } : ScalarSeries Int).rows.getD 1 none = none) ∧
    (({ name := "g", rows := [some true, none] } : ScalarSeries Bool).rows.getD 1 none
        = none) ∧
    ((⟨"g", [], [0, 0, 0], [false, false]⟩ : GeometryArray).get 1 = none) :=
  ⟨(claim_C1 Int Int natCodec 1).1 (Series.geometry arrEx) arrEx (fun _ => 0)
      { name := "g", rows := [some 0, none, some 0] } rfl rfl rfl,
   (claim_C1 Int Int natCodec 1).2.1 (Series.geometry arrEx) arrEx (fun g => g)
      ⟨"g", [2, 5, 0, 9], [0, 2, 2, 4], [true, false, true]⟩ rfl rfl rfl,
   (claim_C1 Int Int natCodec 1).2.2.1 (Series.geometry arrEx) (Series.geometry arrEx2)
      arrEx arrEx2 (fun _ _ => 0) { name := "g", rows := [some 0, none] } rfl rfl rfl
      (Or.inl rfl),
   (claim_C1 Int Int natCodec 1).2.2.2.1 (Series.geometry arrEx) (Series.geometry arrEx2)
      arrEx arrEx2 (fun _ _ => true) { name := "g", rows := [some true, none] } rfl rfl rfl
      (Or.inl rfl),
   (claim_C1 Int Int natCodec 1).2.2.2.2 (Series.geometry arrEx) (Series.geometry arrEx2)
      arrEx arrEx2 (fun _ _ => none) ⟨"g", [], [0, 0, 0], [false, false]⟩ rfl rfl rfl
      (Or.inl rfl)⟩

theorem mem_of_getElem?_some {α : Type} {l : List α} {i : Nat} {a : α}
    (h : l[i]? = some a) : a ∈ l := by
  obtain ⟨hlt, rfl⟩ := List.getElem?_eq_some.mp h
  exact List.getElem_mem hlt

/-- C2: decode failure policy.  With raise_on_failure true, any malformed row
aborts the whole call with the decode error (no column is returned); with
raise_on_failure false the call always succeeds, every malformed or null row
becomes a null row, and every well-formed row is stored decoded (re-encoded to
WKB in the builder). -/
theorem claim_C2 (F : Type) (c : SpatialCodec) :
    (∀ (name : String) (rows : List (Option (List Nat))) (i : Nat) (b : List Nat),
      rows[i]? = some (some b) → c.wkbDecode b = none →
      decode_series (F := F) c (.binary name rows) true =
        .error (.ValueError "Could not decode WKB")) ∧
    (∀ (name : String) (rows : List (Option String)) (i : Nat) (x : String),
      rows[i]? = some (some x) → c.wktDecode x = none →
      ∃ y, some y ∈ rows ∧ c.wktDecode y = none ∧
        decode_series (F := F) c (.utf8 name rows) true =
          .error (.ValueError ("Could not decode WKT text " ++ y))) ∧
    (∀ (name : String) (rows : List (Option (List Nat))),
      ∃ arr, decode_series (F := F) c (.binary name rows) false = .ok (.geometry arr) ∧
        arr.rowCount = rows.length ∧
        ∀ i, (rows[i]? = some none → arr.get i = none) ∧
          ∀ b, rows[i]? = some (some b) →
            (c.wkbDecode b = none → arr.get i = none) ∧
            ∀ g, c.wkbDecode b = some g → arr.get i = some (c.toWkb g)) ∧
    (∀ (name : String) (rows : List (Option String)),
      ∃ arr, decode_series (F := F) c (.utf8 name rows) false = .ok (.geometry arr) ∧
        arr.rowCount = rows.length ∧
        ∀ i, (rows[i]? = some none → arr.get i = none) ∧
          ∀ x, rows[i]? = some (some x) →
            (c.wktDecode x = none → arr.get i = none) ∧
            ∀ g, c.wktDecode x = some g → arr.get i = some (c.toWkb g)) := by
  refine ⟨?_, ?_, ?_, ?_⟩
  · intro name rows i b hrow hbad
    rw [decode_series,
      decodeLoopWkb_true_error c rows GH.new b (mem_of_getElem?_some hrow) hbad]
    rfl
  · intro name rows i x hrow hbad
    obtain ⟨y, hy1, hy2, hy3⟩ :=
      decodeLoopWkt_true_error c rows GH.new x (mem_of_getElem?_some hrow) hbad
    refine ⟨y, hy1, hy2, ?_⟩
    rw [decode_series, hy3]
    rfl
  · intro name rows
    refine ⟨_, decode_series_binary_false c name rows, ?_, ?_⟩
    · rw [finalize_rowCount, List.length_map]
    · intro i
      constructor
      · intro hrow
        obtain ⟨hi, heq⟩ := List.getElem?_eq_some.mp hrow
        have hacts : i < (rows.map (decodeActWkb c)).length := by simpa using hi
        rw [finalize_get_of_lt c _ name i hacts, List.getD_eq_getElem _ _ hacts,
          List.getElem_map, heq]
        rfl
      · intro b hrow
        obtain ⟨hi, heq⟩ := List.getElem?_eq_some.mp hrow
        have hacts : i < (rows.map (decodeActWkb c)).length := by simpa using hi
        constructor
        · intro hbad
          rw [finalize_get_of_lt c _ name i hacts, List.getD_eq_getElem _ _ hacts,
            List.getElem_map, heq]
          show actSlice c (decodeActWkb c (some b)) = none
          rw [decodeActWkb, hbad]
          rfl
        · intro g hg
          rw [finalize_get_of_lt c _ name i hacts, List.getD_eq_getElem _ _ hacts,
            List.getElem_map, heq]
          show actSlice c (decodeActWkb c (some b)) = some (c.toWkb g)
          rw [decodeActWkb, hg]
          rfl
  · intro name rows
    refine ⟨_, decode_series_utf8_false c name rows, ?_, ?_⟩
    · rw [finalize_rowCount, List.length_map]
    · intro i
      constructor
      · intro hrow
        obtain ⟨hi, heq⟩ := List.getElem?_eq_some.mp hrow
        have hacts : i < (rows.map (decodeActWkt c)).length := by simpa using hi
        rw [finalize_get_of_lt c _ name i hacts, List.getD_eq_getElem _ _ hacts,
          List.getElem_map, heq]
        rfl
      · intro x hrow
        obtain ⟨hi, heq⟩ := List.getElem?_eq_some.mp hrow
        have hacts : i < (rows.map (decodeActWkt c)).length := by simpa using hi
        constructor
        · intro hbad
          rw [finalize_get_of_lt c _ name i hacts, List.getD_eq_getElem _ _ hacts,
            List.getElem_map, heq]
          show actSlice c (decodeActWkt c (some x)) = none
          rw [decodeActWkt, hbad]
          rfl
        · intro g hg
          rw [finalize_get_of_lt c _ name i hacts, List.getD_eq_getElem _ _ hacts,
            List.getElem_map, heq]
          show actSlice c (decodeActWkt c (some x)) = some (c.toWkb g)
          rw [decodeActWkt, hg]
          rfl

/-- Witness for C2: a binary and a text column with one well-formed and one
malformed row each; raise aborts, no-raise nulls the bad row and decodes the
good one. -/
theorem claim_C2_witness :
    (decode_series (F := Int) natCodec (.binary "b" [some [2, 5], some [9, 9, 9]]) true =
      .error (.ValueError "Could not decode WKB")) ∧
    (∃ y, some y ∈ [some "PT", some "bad"] ∧ natCodec.wktDecode y = none ∧
      decode_series (F := Int) natCodec (.utf8 "t" [some "PT", some "bad"]) true =
        .error (.ValueError ("Could not decode WKT text " ++ y))) ∧
    (∃ arr, decode_series (F := Int) natCodec (.binary "b" [some [2, 5], some [9, 9, 9]]) false =
      .ok (.geometry arr) ∧ arr.get 0 = some [2, 5] ∧ arr.get 1 = none) ∧
    (∃ arr, decode_series (F := Int) natCodec (.utf8 "t" [some "PT", some "bad"]) false =
      .ok (.geometry arr) ∧ arr.get 0 = some [0, 7] ∧ arr.get 1 = none) := by
  have h := claim_C2 Int natCodec
  refine ⟨h.1 "b" _ 1 [9, 9, 9] rfl rfl, h.2.1 "t" _ 1 "bad" rfl rfl, ?_, ?_⟩
  · obtain ⟨arr, harr, hcount, hrows⟩ := h.2.2.1 "b" [some [2, 5], some [9, 9, 9]]
    exact ⟨arr, harr, ((hrows 0).2 [2, 5] rfl).2 (Geometry.polygon 5) rfl,
      ((hrows 1).2 [9, 9, 9] rfl).1 rfl⟩
  · obtain ⟨arr, harr, hcount, hrows⟩ := h.2.2.2 "t" [some "PT", some "bad"]
    exact ⟨arr, harr, ((hrows 0).2 "PT" rfl).2 (Geometry.point 7) rfl,
      ((hrows 1).2 "bad" rfl).1 rfl⟩

/-- C3: decoding any series whose type is neither Binary nor Utf8 fails, for
both raise flags, with a TypeError naming the offending type, and produces no
geometry column. -/
theorem claim_C3 (F : Type) (c : SpatialCodec) (s : Series F) (raise : Bool)
    (h1 : s.dataType ≠ .Binary) (h2 : s.dataType ≠ .Utf8) :
    decode_series c s raise = .error (.TypeError
      ("GeoDecode can only decode Binary or Utf8 arrays, got " ++ s.dataType.render)) := by
  cases s with
  | binary n rows => exact absurd rfl h1
  | utf8 n rows => exact absurd rfl h2
  | geometry a => rfl
  | float64 n rows => rfl
  | boolean n rows => rfl

/-- Witness for C3: decoding a Float64 series fails with the TypeError naming
Float64. -/
theorem claim_C3_witness :
    decode_series natCodec (Series.float64 (F := Int) "x" []) true = .error (.TypeError
      ("GeoDecode can only decode Binary or Utf8 arrays, got "
        ++ (Series.float64 (F := Int) "x" []).dataType.render)) :=
  claim_C3 Int natCodec (Series.float64 "x" []) true (by decide) (by decide)

/-- C4: dispatching a tag not wired for the requested arity (unary: everything
but Area and ConvexHull; binary: everything but Distance, Intersects, Contains
and Intersection) fails with an unsupported-operation error naming the tag,
and no result column is produced. -/
theorem claim_C4 (F : Type) (c : SpatialCodec) (E : GeoEngine F) (op : GeoOperation) :
    (∀ s : Series F, op ≠ .Area → op ≠ .ConvexHull →
      geo_unary_dispatch c E s op =
        some (.error (.ValueError ("unsupported op " ++ op.debugStr)))) ∧
    (∀ lhs rhs : Series F, op ≠ .Distance → op ≠ .Intersects → op ≠ .Contains →
      op ≠ .Intersection →
      geo_binary_dispatch c E lhs rhs op =
        some (.error (.ValueError ("unsupported op " ++ op.debugStr)))) := by
  constructor
  · intro s h1 h2
    cases op <;> first
      | exact absurd rfl h1
      | exact absurd rfl h2
      | rfl
  · intro lhs rhs h1 h2 h3 h4
    cases op <;> first
      | exact absurd rfl h1
      | exact absurd rfl h2
      | exact absurd rfl h3
      | exact absurd rfl h4
      | rfl

/-- Witness for C4: Distance is not wired for unary dispatch and Area is not
wired for binary dispatch. -/
theorem claim_C4_witness :
    (geo_unary_dispatch natCodec natEngine (Series.geometry arrEx) GeoOperation.Distance =
      some (.error (.ValueError ("unsupported op " ++ GeoOperation.Distance.debugStr)))) ∧
    (geo_binary_dispatch natCodec natEngine (Series.geometry arrEx) (Series.geometry arrEx2)
        GeoOperation.Area =
      some (.error (.ValueError ("unsupported op " ++ GeoOperation.Area.debugStr)))) :=
  ⟨(claim_C4 Int natCodec natEngine .Distance).1 _ (by decide) (by decide),
   (claim_C4 Int natCodec natEngine .Area).2 _ _ (by decide) (by decide) (by decide) (by decide)⟩

/-- C6: builder invariant.  Every builder state reachable by push/null actions
has offsets starting at 0, of length rows+1, non-decreasing, ending at the
byte-buffer length; a null appends the previous offset with validity false and
leaves the buffer unchanged; a push appends exactly the encoded bytes, a new
offset equal to previous plus encoded length, and validity true; and the
finalized column satisfies the layout invariant (null rows have equal
neighbouring offsets, valid rows' slices decode to a geometry value, given
that the external codec round-trips). -/
theorem claim_C6 (c : SpatialCodec) (rt : Geometry → Geometry)
    (hrt : ∀ g, c.wkbDecode (c.toWkb g) = some (rt g)) (acts : List BuildAct) :
    (runBuilder c acts).offsets.head? = some 0 ∧
    (runBuilder c acts).offsets.length = acts.length + 1 ∧
    (runBuilder c acts).validity.length = acts.length ∧
    List.Chain' (· ≤ ·) (runBuilder c acts).offsets ∧
    lastOffset (runBuilder c acts).offsets = ((runBuilder c acts).geo_vec.length : Int) ∧
    ((runBuilder c acts).null.geo_vec = (runBuilder c acts).geo_vec ∧
      (runBuilder c acts).null.offsets =
        (runBuilder c acts).offsets ++ [lastOffset (runBuilder c acts).offsets] ∧
      (runBuilder c acts).null.validity = (runBuilder c acts).validity ++ [false]) ∧
    (∀ g, ((runBuilder c acts).push c g).geo_vec = (runBuilder c acts).geo_vec ++ c.toWkb g ∧
      ((runBuilder c acts).push c g).offsets =
        (runBuilder c acts).offsets ++
          [lastOffset (runBuilder c acts).offsets + ((c.toWkb g).length : Int)] ∧
      ((runBuilder c acts).push c g).validity = (runBuilder c acts).validity ++ [true]) ∧
    (∀ name : String, gh_to name (runBuilder c acts) =
        .ok ((runBuilder c acts).finalize name) ∧
      ∀ i, i < acts.length →
        (((runBuilder c acts).finalize name).validity.getD i false = false →
          offAt ((runBuilder c acts).finalize name).offsets (i + 1) =
            offAt ((runBuilder c acts).finalize name).offsets i) ∧
        (((runBuilder c acts).finalize name).validity.getD i false = true →
          ∃ g2, c.wkbDecode (((runBuilder c acts).finalize name).rowSlice i) = some g2)) := by
  refine ⟨?_, ?_, ?_, ?_, ?_, ⟨rfl, rfl, rfl⟩, fun g => ⟨rfl, rfl, rfl⟩, ?_⟩
  · rw [runBuilder_offsets, List.range_succ_eq_map, List.map_cons, List.head?_cons]
    rfl
  · rw [runBuilder_offsets, List.length_map, List.length_range]
  · rw [runBuilder_validity, List.length_map]
  · rw [← isNonDecreasing_eq_true_iff]
    exact isNonDecreasing_runBuilder c acts
  · rw [runBuilder_offsets, runBuilder_geo_vec, List.range_succ, List.map_append,
      List.map_singleton, lastOffset_append_single]
    exact congrArg _ (prefixBytes_last c acts)
  · intro name
    refine ⟨gh_to_runBuilder c acts name, fun i hi => ⟨?_, ?_⟩⟩
    · intro hnull
      rw [finalize_validity_getD c acts name i hi] at hnull
      rw [finalize_offAt c acts name i (by omega), finalize_offAt c acts name (i + 1) (by omega)]
      have hsome : acts[i]? = some (acts.getD i BuildAct.null) := by
        rw [List.getD_eq_getElem _ _ hi]
        exact List.getElem?_eq_getElem hi
      cases hact : acts.getD i BuildAct.null with
      | push g => rw [hact] at hnull; cases hnull
      | null =>
        rw [hact] at hsome
        have := prefixBytes_succ c acts i
        rw [hsome] at this
        simp only [Option.elim, actBytes, List.length_nil, Nat.add_zero] at this
        rw [this]
    · intro hvalid
      rw [finalize_validity_getD c acts name i hi] at hvalid
      cases hact : acts.getD i BuildAct.null with
      | null => rw [hact] at hvalid; cases hvalid
      | push g =>
        rw [finalize_rowSlice c acts name i hi, hact]
        exact ⟨rt g, hrt g⟩

/-- Witness for C6: a push followed by a null from a fresh builder, under the
concrete codec. -/
theorem claim_C6_witness :
    (runBuilder natCodec [BuildAct.push (Geometry.polygon 5), BuildAct.null]).offsets.head?
        = some 0 ∧
    List.Chain' (· ≤ ·)
      (runBuilder natCodec [BuildAct.push (Geometry.polygon 5), BuildAct.null]).offsets ∧
    lastOffset (runBuilder natCodec [BuildAct.push (Geometry.polygon 5), BuildAct.null]).offsets
      = ((runBuilder natCodec
          [BuildAct.push (Geometry.polygon 5), BuildAct.null]).geo_vec.length : Int) := by
  have h := claim_C6 natCodec (fun g => g) (fun g => by cases g <;> rfl)
    [BuildAct.push (Geometry.polygon 5), BuildAct.null]
  exact ⟨h.1, h.2.2.2.1, h.2.2.2.2.1⟩

/-- C5: Intersection rows with both operands present.  If both values are
polygons, or both are multi-polygons, the result row is a geometry value (the
encoded intersection); for every other kind pairing the result row is null,
and in all cases the dispatch call itself succeeds. -/
theorem claim_C5 (F : Type) (c : SpatialCodec) (E : GeoEngine F) (lhs rhs : Series F)
    (la ra : GeometryArray) (litems ritems : List (Option Geometry)) (i : Nat)
    (l r : Geometry)
    (hl : lhs.geometrySeries = .ok la) (hr : rhs.geometrySeries = .ok ra)
    (hitl : iterItems c la = some litems) (hitr : iterItems c ra = some ritems)
    (hli : litems[i]? = some (some l)) (hri : ritems[i]? = some (some r)) :
    ∃ out : GeometryArray,
      geo_binary_dispatch c E lhs rhs .Intersection = some (.ok (Series.geometry out)) ∧
      (∀ a b, l = .polygon a → r = .polygon b →
        out.get i = some (c.toWkb (Geometry.multiPolygon (E.poly_intersection a b)))) ∧
      (∀ a b, l = .multiPolygon a → r = .multiPolygon b →
        out.get i = some (c.toWkb (Geometry.multiPolygon (E.multi_poly_intersection a b)))) ∧
      ((∀ a b, ¬(l = .polygon a ∧ r = .polygon b)) →
        (∀ a b, ¬(l = .multiPolygon a ∧ r = .multiPolygon b)) →
        out.get i = none) := by
  obtain rfl := geometrySeries_ok lhs la hl
  obtain rfl := geometrySeries_ok rhs ra hr
  have hzl : i < litems.length := (List.getElem?_eq_some.mp hli).1
  have hzr : i < ritems.length := (List.getElem?_eq_some.mp hri).1
  have hleq : litems[i] = some l := (List.getElem?_eq_some.mp hli).2
  have hreq : ritems[i] = some r := (List.getElem?_eq_some.mp hri).2
  have hi : i < (litems.zip ritems).length := by rw [List.length_zip]; omega
  have hacts : i < ((litems.zip ritems).map (binaryAct (intersectionFn E))).length := by
    simpa using hi
  have hout : ((runBuilder c
      ((litems.zip ritems).map (binaryAct (intersectionFn E)))).finalize la.name).get i =
      actSlice c (binaryAct (intersectionFn E) (some l, some r)) := by
    rw [finalize_get_of_lt c _ la.name i hacts, List.getD_eq_getElem _ _ hacts,
      List.getElem_map, zip_getElem_eq litems ritems i hi hzl hzr, hleq, hreq]
  refine ⟨(runBuilder c
      ((litems.zip ritems).map (binaryAct (intersectionFn E)))).finalize la.name,
    ?_, ?_, ?_, ?_⟩
  · show (geo_binary_to_geo c (.geometry la) (.geometry ra) (intersectionFn E)).map
      (Except.map Series.geometry) = _
    rw [geo_binary_to_geo_eq c la ra litems ritems (intersectionFn E) hitl hitr]
    rfl
  · intro a b hla hrb
    subst hla
    subst hrb
    rw [hout]
    rfl
  · intro a b hla hrb
    subst hla
    subst hrb
    rw [hout]
    rfl
  · intro h1 h2
    rw [hout]
    cases l <;> cases r <;>
      first
        | exact absurd ⟨rfl, rfl⟩ (h1 _ _)
        | exact absurd ⟨rfl, rfl⟩ (h2 _ _)
        | rfl

/-- Witness for C5: Intersection over a polygon/polygon row (row 0) yields a
geometry value, and over a point/point row (row 2) yields null, in one
successful call. -/
theorem claim_C5_witness :
    ∃ out : GeometryArray,
      geo_binary_dispatch natCodec natEngine (Series.geometry arrEx) (Series.geometry arrEx3)
        GeoOperation.Intersection = some (.ok (Series.geometry out)) ∧
      out.get 0 = some [3, 6] ∧ out.get 2 = none := by
  obtain ⟨out, hdisp, hpoly, hmulti, hmix⟩ := claim_C5 Int natCodec natEngine
    (Series.geometry arrEx) (Series.geometry arrEx3) arrEx arrEx3
    [some (Geometry.polygon 5), none, some (Geometry.point 9)]
    [some (Geometry.polygon 1), some (Geometry.multiPolygon 6), some (Geometry.point 4)]
    0 (Geometry.polygon 5) (Geometry.polygon 1) rfl rfl rfl rfl rfl rfl
  obtain ⟨out2, hdisp2, hpoly2, hmulti2, hmix2⟩ := claim_C5 Int natCodec natEngine
    (Series.geometry arrEx) (Series.geometry arrEx3) arrEx arrEx3
    [some (Geometry.polygon 5), none, some (Geometry.point 9)]
    [some (Geometry.polygon 1), some (Geometry.multiPolygon 6), some (Geometry.point 4)]
    2 (Geometry.point 9) (Geometry.point 4) rfl rfl rfl rfl rfl rfl
  obtain rfl : out = out2 := Series.geometry.inj (some_ok_inj (hdisp.symm.trans hdisp2))
  exact ⟨out, hdisp, hpoly 5 1 rfl rfl,
    hmix2 (fun a b h => Geometry.noConfusion h.1) (fun a b h => Geometry.noConfusion h.1)⟩

theorem decodeRowsOpt_isSome (c : SpatialCodec) (rows : List (Option (List Nat)))
    (items : List (Option Geometry)) (h : decodeRowsOpt c rows = some items)
    (b : List Nat) (hb : some b ∈ rows) : (c.wkbDecode b).isSome := by
  induction rows generalizing items with
  | nil => cases hb
  | cons r rest ih =>
    cases r with
    | none =>
      rw [decodeRowsOpt] at h
      cases htl : decodeRowsOpt c rest with
      | none => rw [htl] at h; cases h
      | some t => exact ih t htl (by simpa using hb)
    | some bytes =>
      rw [decodeRowsOpt] at h
      cases hd : c.wkbDecode bytes with
      | none => rw [hd] at h; cases h
      | some g =>
        rcases List.mem_cons.mp hb with heq | htl2
        · cases heq
          rw [hd]
          rfl
        · rw [hd] at h
          cases htl : decodeRowsOpt c rest with
          | none => rw [htl] at h; cases h
          | some t => exact ih t htl htl2

theorem gh_to_name (name : String) (gh : GH) (arr : GeometryArray)
    (h : gh_to name gh = .ok arr) : arr.name = name := by
  rw [gh_to] at h
  split at h
  · cases h
    rfl
  · cases h

theorem to_wkt_eq {F : Type} (c : SpatialCodec) (arr : GeometryArray)
    (items : List (Option Geometry)) (h : iterItems c arr = some items) :
    to_wkt (F := F) c (.geometry arr) =
      some (.ok (.utf8 arr.name (items.map (Option.map c.toWkt)))) := by
  rw [to_wkt]
  show (iterItems c arr).map _ = _
  rw [h]
  rfl

theorem to_wkb_eq {F : Type} (c : SpatialCodec) (arr : GeometryArray)
    (items : List (Option Geometry)) (h : iterItems c arr = some items) :
    to_wkb (F := F) c (.geometry arr) =
      some (.ok (.binary arr.name (items.map (Option.map c.toWkb)))) := by
  rw [to_wkb]
  show (iterItems c arr).map _ = _
  rw [h]
  rfl

theorem to_wkt_none {F : Type} (c : SpatialCodec) (arr : GeometryArray)
    (h : iterItems c arr = none) : to_wkt (F := F) c (.geometry arr) = none := by
  rw [to_wkt]
  show (iterItems c arr).map _ = _
  rw [h]
  rfl

theorem to_wkb_none {F : Type} (c : SpatialCodec) (arr : GeometryArray)
    (h : iterItems c arr = none) : to_wkb (F := F) c (.geometry arr) = none := by
  rw [to_wkb]
  show (iterItems c arr).map _ = _
  rw [h]
  rfl

/-- C8: encode maps each null row to a null row at the same position and each
present row to its encoded form (WKT text when as_text is true, WKB bytes when
false), with one output row per input row. -/
theorem claim_C8 (F : Type) (c : SpatialCodec) (s : Series F) (arr : GeometryArray)
    (items : List (Option Geometry))
    (hgs : s.geometrySeries = .ok arr) (hit : iterItems c arr = some items) :
    (∃ outRows, encode_series c s true = some (.ok (.utf8 arr.name outRows)) ∧
      outRows.length = arr.rowCount ∧
      ∀ i, i < arr.rowCount →
        (arr.get i = none → outRows.getD i none = none) ∧
        ∀ b, arr.get i = some b →
          ∃ g, c.wkbDecode b = some g ∧ outRows.getD i none = some (c.toWkt g)) ∧
    (∃ outRows, encode_series c s false = some (.ok (.binary arr.name outRows)) ∧
      outRows.length = arr.rowCount ∧
      ∀ i, i < arr.rowCount →
        (arr.get i = none → outRows.getD i none = none) ∧
        ∀ b, arr.get i = some b →
          ∃ g, c.wkbDecode b = some g ∧ outRows.getD i none = some (c.toWkb g)) := by
  obtain rfl := geometrySeries_ok s arr hgs
  constructor
  · refine ⟨items.map (Option.map c.toWkt), to_wkt_eq c arr items hit, ?_, ?_⟩
    · rw [List.length_map, iterItems_length c arr items hit]
    · intro i hi
      constructor
      · intro hnull
        rw [getD_map_opt, iterItems_getD_none c arr items i hit hnull]
        rfl
      · intro b hb
        have hsome : (c.wkbDecode b).isSome := by
          refine decodeRowsOpt_isSome c arr.rows items hit b ?_
          refine mem_of_getElem?_some (i := i) ?_
          rw [rows_getElem arr i hi, hb]
        obtain ⟨g, hg⟩ := Option.isSome_iff_exists.mp hsome
        refine ⟨g, hg, ?_⟩
        have hitem := iterItems_valid c arr items i b hit hi hb
        rw [hg] at hitem
        rw [getD_map_opt, List.getD_eq_getElem?_getD, hitem]
        rfl
  · refine ⟨items.map (Option.map c.toWkb), to_wkb_eq c arr items hit, ?_, ?_⟩
    · rw [List.length_map, iterItems_length c arr items hit]
    · intro i hi
      constructor
      · intro hnull
        rw [getD_map_opt, iterItems_getD_none c arr items i hit hnull]
        rfl
      · intro b hb
        have hsome : (c.wkbDecode b).isSome := by
          refine decodeRowsOpt_isSome c arr.rows items hit b ?_
          refine mem_of_getElem?_some (i := i) ?_
          rw [rows_getElem arr i hi, hb]
        obtain ⟨g, hg⟩ := Option.isSome_iff_exists.mp hsome
        refine ⟨g, hg, ?_⟩
        have hitem := iterItems_valid c arr items i b hit hi hb
        rw [hg] at hitem
        rw [getD_map_opt, List.getD_eq_getElem?_getD, hitem]
        rfl

/-- Witness for C8: encoding the concrete three-row column to text and to
binary keeps the null at row 1 and encodes row 0. -/
theorem claim_C8_witness :
    (∃ outRows, encode_series (F := Int) natCodec (Series.geometry arrEx) true =
      some (.ok (.utf8 arrEx.name outRows)) ∧ outRows.getD 1 none = none ∧
      outRows.getD 0 none = some "POLYGON 5") ∧
    (∃ outRows, encode_series (F := Int) natCodec (Series.geometry arrEx) false =
      some (.ok (.binary arrEx.name outRows)) ∧ outRows.getD 1 none = none ∧
      outRows.getD 0 none = some [2, 5]) := by
  obtain ⟨⟨tRows, ht1, ht2, ht3⟩, ⟨bRows, hb1, hb2, hb3⟩⟩ := claim_C8 Int natCodec
    (Series.geometry arrEx) arrEx [some (Geometry.polygon 5), none, some (Geometry.point 9)]
    rfl rfl
  refine ⟨⟨tRows, ht1, (ht3 1 (by decide)).1 rfl, ?_⟩,
    ⟨bRows, hb1, (hb3 1 (by decide)).1 rfl, ?_⟩⟩
  · obtain ⟨g, hg, hrow⟩ := (ht3 0 (by decide)).2 [2, 5] rfl
    injection hg with hgg
    rw [← hgg] at hrow
    exact hrow
  · obtain ⟨g, hg, hrow⟩ := (hb3 0 (by decide)).2 [2, 5] rfl
    injection hg with hgg
    rw [← hgg] at hrow
    exact hrow

theorem decode_series_name {F : Type} (c : SpatialCodec) (s r : Series F) (raise : Bool)
    (h : decode_series c s raise = .ok r) : r.name = s.name := by
  cases s with
  | binary n rows =>
    rw [decode_series] at h
    cases hloop : decodeLoopWkb c raise rows GH.new with
    | error e => rw [hloop] at h; cases h
    | ok gh =>
      rw [hloop] at h
      have h2 : (gh_to n gh).map Series.geometry = Except.ok r := h
      cases hgt : gh_to n gh with
      | error e => rw [hgt] at h2; cases h2
      | ok arr =>
        rw [hgt] at h2
        cases h2
        exact gh_to_name n gh arr hgt
  | utf8 n rows =>
    rw [decode_series] at h
    cases hloop : decodeLoopWkt c raise rows GH.new with
    | error e => rw [hloop] at h; cases h
    | ok gh =>
      rw [hloop] at h
      have h2 : (gh_to n gh).map Series.geometry = Except.ok r := h
      cases hgt : gh_to n gh with
      | error e => rw [hgt] at h2; cases h2
      | ok arr =>
        rw [hgt] at h2
        cases h2
        exact gh_to_name n gh arr hgt
  | geometry a => exact Except.noConfusion h
  | float64 n rows => exact Except.noConfusion h
  | boolean n rows => exact Except.noConfusion h

theorem encode_series_name {F : Type} (c : SpatialCodec) (s r : Series F) (text : Bool)
    (h : encode_series c s text = some (.ok r)) : r.name = s.name := by
  cases s with
  | geometry arr =>
    cases hit : iterItems c arr with
    | none =>
      cases text with
      | true => rw [encode_series, to_wkt_none c arr hit] at h; cases h
      | false => rw [encode_series, to_wkb_none c arr hit] at h; cases h
    | some items =>
      cases text with
      | true =>
        rw [encode_series, to_wkt_eq c arr items hit] at h
        obtain rfl := some_ok_inj h
        rfl
      | false =>
        rw [encode_series, to_wkb_eq c arr items hit] at h
        obtain rfl := some_ok_inj h
        rfl
  | binary n rows => cases text <;> exact Except.noConfusion (Option.some.inj h)
  | utf8 n rows => cases text <;> exact Except.noConfusion (Option.some.inj h)
  | float64 n rows => cases text <;> exact Except.noConfusion (Option.some.inj h)
  | boolean n rows => cases text <;> exact Except.noConfusion (Option.some.inj h)

theorem geo_unary_to_scalar_name {F T : Type} (c : SpatialCodec) (s : Series F)
    (op_fn : Geometry → T) (out : ScalarSeries T)
    (h : geo_unary_to_scalar c s op_fn = some (.ok out)) : out.name = s.name := by
  cases hgs : s.geometrySeries with
  | error e =>
    cases s with
    | geometry a => exact Except.noConfusion hgs
    | binary n rows => exact Except.noConfusion (Option.some.inj h)
    | utf8 n rows => exact Except.noConfusion (Option.some.inj h)
    | float64 n rows => exact Except.noConfusion (Option.some.inj h)
    | boolean n rows => exact Except.noConfusion (Option.some.inj h)
  | ok arr =>
    obtain rfl := geometrySeries_ok s arr hgs
    cases hit : iterItems c arr with
    | none => rw [geo_unary_to_scalar_none c arr op_fn hit] at h; cases h
    | some items =>
      rw [geo_unary_to_scalar_eq c arr items op_fn hit] at h
      obtain rfl := some_ok_inj h
      rfl

theorem geo_unary_to_geo_name {F : Type} (c : SpatialCodec) (s : Series F)
    (op_fn : Geometry → Geometry) (out : GeometryArray)
    (h : geo_unary_to_geo c s op_fn = some (.ok out)) : out.name = s.name := by
  cases hgs : s.geometrySeries with
  | error e =>
    cases s with
    | geometry a => exact Except.noConfusion hgs
    | binary n rows => exact Except.noConfusion (Option.some.inj h)
    | utf8 n rows => exact Except.noConfusion (Option.some.inj h)
    | float64 n rows => exact Except.noConfusion (Option.some.inj h)
    | boolean n rows => exact Except.noConfusion (Option.some.inj h)
  | ok arr =>
    obtain rfl := geometrySeries_ok s arr hgs
    cases hit : iterItems c arr with
    | none => rw [geo_unary_to_geo_none c arr op_fn hit] at h; cases h
    | some items =>
      rw [geo_unary_to_geo_eq c arr items op_fn hit] at h
      obtain rfl := some_ok_inj h
      rfl

theorem geo_binary_to_scalar_name {F T : Type} (c : SpatialCodec) (lhs rhs : Series F)
    (op_fn : Geometry → Geometry → T) (out : ScalarSeries T)
    (h : geo_binary_to_scalar c lhs rhs op_fn = some (.ok out)) : out.name = lhs.name := by
  cases lhs with
  | binary n rows => exact Except.noConfusion (Option.some.inj h)
  | utf8 n rows => exact Except.noConfusion (Option.some.inj h)
  | float64 n rows => exact Except.noConfusion (Option.some.inj h)
  | boolean n rows => exact Except.noConfusion (Option.some.inj h)
  | geometry la =>
    cases rhs with
    | binary n rows => exact Except.noConfusion (Option.some.inj h)
    | utf8 n rows => exact Except.noConfusion (Option.some.inj h)
    | float64 n rows => exact Except.noConfusion (Option.some.inj h)
    | boolean n rows => exact Except.noConfusion (Option.some.inj h)
    | geometry ra =>
      cases hitl : iterItems c la with
      | none => rw [geo_binary_to_scalar_none_l c la ra op_fn hitl] at h; cases h
      | some litems =>
        cases hitr : iterItems c ra with
        | none =>
          rw [geo_binary_to_scalar_none_r c la ra litems op_fn hitl hitr] at h
          cases h
        | some ritems =>
          rw [geo_binary_to_scalar_eq c la ra litems ritems op_fn hitl hitr] at h
          obtain rfl := some_ok_inj h
          rfl

theorem geo_binary_to_bool_name {F : Type} (c : SpatialCodec) (lhs rhs : Series F)
    (op_fn : Geometry → Geometry → Bool) (out : ScalarSeries Bool)
    (h : geo_binary_to_bool c lhs rhs op_fn = some (.ok out)) : out.name = lhs.name := by
  cases lhs with
  | binary n rows => exact Except.noConfusion (Option.some.inj h)
  | utf8 n rows => exact Except.noConfusion (Option.some.inj h)
  | float64 n rows => exact Except.noConfusion (Option.some.inj h)
  | boolean n rows => exact Except.noConfusion (Option.some.inj h)
  | geometry la =>
    cases rhs with
    | binary n rows => exact Except.noConfusion (Option.some.inj h)
    | utf8 n rows => exact Except.noConfusion (Option.some.inj h)
    | float64 n rows => exact Except.noConfusion (Option.some.inj h)
    | boolean n rows => exact Except.noConfusion (Option.some.inj h)
    | geometry ra =>
      cases hitl : iterItems c la with
      | none => rw [geo_binary_to_bool_none_l c la ra op_fn hitl] at h; cases h
      | some litems =>
        cases hitr : iterItems c ra with
        | none =>
          rw [geo_binary_to_bool_none_r c la ra litems op_fn hitl hitr] at h
          cases h
        | some ritems =>
          rw [geo_binary_to_bool_eq c la ra litems ritems op_fn hitl hitr] at h
          obtain rfl := some_ok_inj h
          rfl

theorem geo_binary_to_geo_name {F : Type} (c : SpatialCodec) (lhs rhs : Series F)
    (op_fn : Geometry → Geometry → Option Geometry) (out : GeometryArray)
    (h : geo_binary_to_geo c lhs rhs op_fn = some (.ok out)) : out.name = lhs.name := by
  cases lhs with
  | binary n rows => exact Except.noConfusion (Option.some.inj h)
  | utf8 n rows => exact Except.noConfusion (Option.some.inj h)
  | float64 n rows => exact Except.noConfusion (Option.some.inj h)
  | boolean n rows => exact Except.noConfusion (Option.some.inj h)
  | geometry la =>
    cases rhs with
    | binary n rows => exact Except.noConfusion (Option.some.inj h)
    | utf8 n rows => exact Except.noConfusion (Option.some.inj h)
    | float64 n rows => exact Except.noConfusion (Option.some.inj h)
    | boolean n rows => exact Except.noConfusion (Option.some.inj h)
    | geometry ra =>
      cases hitl : iterItems c la with
      | none => rw [geo_binary_to_geo_none_l c la ra op_fn hitl] at h; cases h
      | some litems =>
        cases hitr : iterItems c ra with
        | none =>
          rw [geo_binary_to_geo_none_r c la ra litems op_fn hitl hitr] at h
          cases h
        | some ritems =>
          rw [geo_binary_to_geo_eq c la ra litems ritems op_fn hitl hitr] at h
          obtain rfl := some_ok_inj h
          rfl

/-- C9: on success, decode, encode and unary dispatch name the output column
after the input column, and binary dispatch names it after the left operand
regardless of the right operand. -/
theorem claim_C9 (F : Type) (c : SpatialCodec) (E : GeoEngine F) :
    (∀ (s r : Series F) (raise : Bool), decode_series c s raise = .ok r → r.name = s.name) ∧
    (∀ (s r : Series F) (text : Bool), encode_series c s text = some (.ok r) →
      r.name = s.name) ∧
    (∀ (s r : Series F) (op : GeoOperation),
      geo_unary_dispatch c E s op = some (.ok r) → r.name = s.name) ∧
    (∀ (lhs rhs r : Series F) (op : GeoOperation),
      geo_binary_dispatch c E lhs rhs op = some (.ok r) → r.name = lhs.name) := by
  refine ⟨fun s r raise h => decode_series_name c s r raise h,
    fun s r text h => encode_series_name c s r text h, ?_, ?_⟩
  · intro s r op h
    cases op with
    | Area =>
      cases hx : geo_unary_to_scalar c s E.unsigned_area with
      | none => rw [geo_unary_dispatch, hx] at h; cases h
      | some v =>
        rw [geo_unary_dispatch, hx] at h
        cases v with
        | error e => exact Except.noConfusion (Option.some.inj h)
        | ok sc =>
          obtain rfl := Except.ok.inj (Option.some.inj h)
          exact geo_unary_to_scalar_name c s E.unsigned_area sc hx
    | ConvexHull =>
      cases hx : geo_unary_to_geo c s E.convex_hull with
      | none => rw [geo_unary_dispatch, hx] at h; cases h
      | some v =>
        rw [geo_unary_dispatch, hx] at h
        cases v with
        | error e => exact Except.noConfusion (Option.some.inj h)
        | ok arr =>
          obtain rfl := Except.ok.inj (Option.some.inj h)
          exact geo_unary_to_geo_name c s E.convex_hull arr hx
    | Distance => exact Except.noConfusion (Option.some.inj h)
    | Intersects => exact Except.noConfusion (Option.some.inj h)
    | Intersection => exact Except.noConfusion (Option.some.inj h)
    | Contains => exact Except.noConfusion (Option.some.inj h)
  · intro lhs rhs r op h
    cases op with
    | Distance =>
      cases hx : geo_binary_to_scalar c lhs rhs E.euclidean_distance with
      | none => rw [geo_binary_dispatch, hx] at h; cases h
      | some v =>
        rw [geo_binary_dispatch, hx] at h
        cases v with
        | error e => exact Except.noConfusion (Option.some.inj h)
        | ok sc =>
          obtain rfl := Except.ok.inj (Option.some.inj h)
          exact geo_binary_to_scalar_name c lhs rhs E.euclidean_distance sc hx
    | Intersects =>
      cases hx : geo_binary_to_bool c lhs rhs E.intersectsFn with
      | none => rw [geo_binary_dispatch, hx] at h; cases h
      | some v =>
        rw [geo_binary_dispatch, hx] at h
        cases v with
        | error e => exact Except.noConfusion (Option.some.inj h)
        | ok sc =>
          obtain rfl := Except.ok.inj (Option.some.inj h)
          exact geo_binary_to_bool_name c lhs rhs E.intersectsFn sc hx
    | Contains =>
      cases hx : geo_binary_to_bool c lhs rhs E.containsFn with
      | none => rw [geo_binary_dispatch, hx] at h; cases h
      | some v =>
        rw [geo_binary_dispatch, hx] at h
        cases v with
        | error e => exact Except.noConfusion (Option.some.inj h)
        | ok sc =>
          obtain rfl := Except.ok.inj (Option.some.inj h)
          exact geo_binary_to_bool_name c lhs rhs E.containsFn sc hx
    | Intersection =>
      have h2 : (geo_binary_to_geo c lhs rhs (intersectionFn E)).map
          (Except.map Series.geometry) = some (.ok r) := h
      cases hx : geo_binary_to_geo c lhs rhs (intersectionFn E) with
      | none => rw [hx] at h2; cases h2
      | some v =>
        rw [hx] at h2
        cases v with
        | error e => exact Except.noConfusion (Option.some.inj h2)
        | ok arr =>
          obtain rfl := Except.ok.inj (Option.some.inj h2)
          exact geo_binary_to_geo_name c lhs rhs (intersectionFn E) arr hx
    | Area => exact Except.noConfusion (Option.some.inj h)
    | ConvexHull => exact Except.noConfusion (Option.some.inj h)

/-- Witness for C9: decode, encode, Area dispatch and Distance dispatch on
concrete columns, each preserving the (left) input name. -/
theorem claim_C9_witness :
    ((Series.geometry ⟨"b", [2, 5], [0, 2], [true]⟩ : Series Int).name =
      (Series.binary "b" [some [2, 5]] : Series Int).name) ∧
    ((Series.binary "g" [some [2, 5], none, some [0, 9]] : Series Int).name =
      (Series.geometry arrEx : Series Int).name) ∧
    ((Series.float64 "g" [some 1, none, some 1] : Series Int).name =
      (Series.geometry arrEx : Series Int).name) ∧
    ((Series.float64 "g" [some 0, none] : Series Int).name =
      (Series.geometry arrEx : Series Int).name) := by
  have h := claim_C9 Int natCodec natEngine
  exact ⟨h.1 (Series.binary "b" [some [2, 5]])
      (Series.geometry ⟨"b", [2, 5], [0, 2], [true]⟩) true rfl,
    h.2.1 (Series.geometry arrEx) (Series.binary "g" [some [2, 5], none, some [0, 9]])
      false rfl,
    h.2.2.1 (Series.geometry arrEx) (Series.float64 "g" [some 1, none, some 1]) .Area rfl,
    h.2.2.2 (Series.geometry arrEx) (Series.geometry arrEx2)
      (Series.float64 "g" [some 0, none]) .Distance rfl⟩

/-- C10: a binary dispatch of any wired tag on two geometry columns produces a
result with exactly min(left rows, right rows) rows; unequal lengths are
silently truncated by the zip, not an error. -/
theorem claim_C10 (F : Type) (c : SpatialCodec) (E : GeoEngine F) (lhs rhs : Series F)
    (la ra : GeometryArray) (litems ritems : List (Option Geometry)) (op : GeoOperation)
    (hl : lhs.geometrySeries = .ok la) (hr : rhs.geometrySeries = .ok ra)
    (hitl : iterItems c la = some litems) (hitr : iterItems c ra = some ritems)
    (hop : op = .Distance ∨ op = .Intersects ∨ op = .Contains ∨ op = .Intersection) :
    ∃ out : Series F, geo_binary_dispatch c E lhs rhs op = some (.ok out) ∧
      out.rowCount = min la.rowCount ra.rowCount := by
  obtain rfl := geometrySeries_ok lhs la hl
  obtain rfl := geometrySeries_ok rhs ra hr
  have hlen : (litems.zip ritems).length = min la.rowCount ra.rowCount := by
    rw [List.length_zip, iterItems_length c la litems hitl, iterItems_length c ra ritems hitr]
  rcases hop with rfl | rfl | rfl | rfl
  · refine ⟨Series.float64 la.name
      ((litems.zip ritems).map (pairApply E.euclidean_distance)), ?_, ?_⟩
    · show (geo_binary_to_scalar c (.geometry la) (.geometry ra) E.euclidean_distance).map
        (Except.map fun sc => Series.float64 sc.name sc.rows) = _
      rw [geo_binary_to_scalar_eq c la ra litems ritems E.euclidean_distance hitl hitr]
      rfl
    · show ((litems.zip ritems).map (pairApply E.euclidean_distance)).length = _
      rw [List.length_map, hlen]
  · refine ⟨Series.boolean la.name
      ((litems.zip ritems).map (pairApply E.intersectsFn)), ?_, ?_⟩
    · show (geo_binary_to_bool c (.geometry la) (.geometry ra) E.intersectsFn).map
        (Except.map fun sc => Series.boolean sc.name sc.rows) = _
      rw [geo_binary_to_bool_eq c la ra litems ritems E.intersectsFn hitl hitr]
      rfl
    · show ((litems.zip ritems).map (pairApply E.intersectsFn)).length = _
      rw [List.length_map, hlen]
  · refine ⟨Series.boolean la.name
      ((litems.zip ritems).map (pairApply E.containsFn)), ?_, ?_⟩
    · show (geo_binary_to_bool c (.geometry la) (.geometry ra) E.containsFn).map
        (Except.map fun sc => Series.boolean sc.name sc.rows) = _
      rw [geo_binary_to_bool_eq c la ra litems ritems E.containsFn hitl hitr]
      rfl
    · show ((litems.zip ritems).map (pairApply E.containsFn)).length = _
      rw [List.length_map, hlen]
  · refine ⟨Series.geometry ((runBuilder c
        ((litems.zip ritems).map (binaryAct (intersectionFn E)))).finalize la.name), ?_, ?_⟩
    · show (geo_binary_to_geo c (.geometry la) (.geometry ra) (intersectionFn E)).map
        (Except.map Series.geometry) = _
      rw [geo_binary_to_geo_eq c la ra litems ritems (intersectionFn E) hitl hitr]
      rfl
    · show ((runBuilder c
          ((litems.zip ritems).map (binaryAct (intersectionFn E)))).finalize la.name).rowCount = _
      rw [finalize_rowCount, List.length_map, hlen]

/-- Witness for C10: Distance over a three-row and a two-row column produces a
two-row result. -/
theorem claim_C10_witness :
    ∃ out : Series Int,
      geo_binary_dispatch natCodec natEngine (Series.geometry arrEx) (Series.geometry arrEx2)
        GeoOperation.Distance = some (.ok out) ∧
      out.rowCount = min arrEx.rowCount arrEx2.rowCount :=
  claim_C10 Int natCodec natEngine (Series.geometry arrEx) (Series.geometry arrEx2)
    arrEx arrEx2 [some (Geometry.polygon 5), none, some (Geometry.point 9)]
    [some (Geometry.point 1), some (Geometry.multiPolygon 6)] .Distance
    rfl rfl rfl rfl (Or.inl rfl)

theorem pipeline_getD (c : SpatialCodec) (rt : Geometry → Geometry)
    (rows : List (Option (List Nat))) (i : Nat) (hiR : i < rows.length) :
    ((rows.map (decodeActWkb c)).map (actDecoded rt)).getD i none =
      actDecoded rt (decodeActWkb c rows[i]) := by
  rw [List.getD_eq_getElem?_getD, List.getElem?_map, List.getElem?_map,
    List.getElem?_eq_getElem hiR]
  rfl

/-- C7: round trip.  Decoding a well-formed binary-encoded column, encoding
the result back to binary, and decoding again yields a geometry column whose
iterated values are topologically equal, row by row, to those of the first
decode, with nulls in the same positions.  The external codec is assumed to
round-trip each value up to the (transitive) topological-equality relation. -/
theorem claim_C7 (F : Type) (c : SpatialCodec) (rt : Geometry → Geometry)
    (topoEq : Geometry → Geometry → Prop) (dec : List Nat → Geometry)
    (name : String) (rows : List (Option (List Nat))) (raise1 raise2 : Bool)
    (hrt : ∀ g, c.wkbDecode (c.toWkb g) = some (rt g))
    (htopo : ∀ g, topoEq g (rt g))
    (htrans : ∀ a b d, topoEq a b → topoEq b d → topoEq a d)
    (hdec : ∀ b, some b ∈ rows → c.wkbDecode b = some (dec b)) :
    ∃ col1 items1 col2 items2,
      decode_series (F := F) c (.binary name rows) raise1 = .ok (.geometry col1) ∧
      iterItems c col1 = some items1 ∧
      encode_series (F := F) c (.geometry col1) false =
        some (.ok (.binary col1.name (items1.map (Option.map c.toWkb)))) ∧
      decode_series (F := F) c (.binary col1.name (items1.map (Option.map c.toWkb))) raise2 =
        .ok (.geometry col2) ∧
      iterItems c col2 = some items2 ∧
      items2.length = items1.length ∧
      ∀ i, i < items1.length →
        (items1.getD i none = none ↔ items2.getD i none = none) ∧
        ∀ g1 g2, items1.getD i none = some g1 → items2.getD i none = some g2 →
          topoEq g1 g2 := by
  have hdec1 : ∀ b, some b ∈ rows → (c.wkbDecode b).isSome := by
    intro b hb
    rw [hdec b hb]
    rfl
  refine ⟨(runBuilder c (rows.map (decodeActWkb c))).finalize name,
    (rows.map (decodeActWkb c)).map (actDecoded rt), ?_⟩
  set items1 := (rows.map (decodeActWkb c)).map (actDecoded rt) with hitems1
  set rows2 := items1.map (Option.map c.toWkb) with hrows2
  have hdec2 : ∀ b, some b ∈ rows2 → (c.wkbDecode b).isSome := by
    intro b2 hb2
    obtain ⟨x, _, hmap⟩ := List.mem_map.mp hb2
    cases x with
    | none => exact Option.noConfusion hmap
    | some g =>
      obtain rfl := (Option.some.inj hmap).symm
      rw [hrt g]
      rfl
  refine ⟨(runBuilder c (rows2.map (decodeActWkb c))).finalize name,
    (rows2.map (decodeActWkb c)).map (actDecoded rt),
    decode_series_binary_ok c raise1 name rows hdec1,
    iterItems_finalize c rt hrt (rows.map (decodeActWkb c)) name,
    to_wkb_eq c _ items1 (iterItems_finalize c rt hrt (rows.map (decodeActWkb c)) name),
    decode_series_binary_ok c raise2 _ rows2 hdec2,
    iterItems_finalize c rt hrt (rows2.map (decodeActWkb c)) name, ?_, ?_⟩
  · simp [hrows2, hitems1]
  · intro i hi
    have hiR : i < rows.length := by
      rw [hitems1] at hi
      simpa using hi
    have hi1 : i < items1.length := hi
    have h2i : i < rows2.length := by
      rw [hrows2]
      simpa using hi
    have e1 : items1.getD i none = actDecoded rt (decodeActWkb c rows[i]) :=
      pipeline_getD c rt rows i hiR
    have e2 : ((rows2.map (decodeActWkb c)).map (actDecoded rt)).getD i none =
        actDecoded rt (decodeActWkb c rows2[i]) :=
      pipeline_getD c rt rows2 i h2i
    have hrow2q : rows2[i]? = some (Option.map c.toWkb (items1.getD i none)) := by
      rw [hrows2, List.getElem?_map, List.getElem?_eq_getElem hi1,
        List.getD_eq_getElem _ _ hi1]
      rfl
    have hrow2 : rows2[i] = Option.map c.toWkb (items1.getD i none) :=
      Option.some.inj ((List.getElem?_eq_getElem h2i).symm.trans hrow2q)
    rcases hrow : rows[i] with _ | b
    · have e1n : items1.getD i none = none := by
        rw [e1, hrow]
        rfl
      have e2n : ((rows2.map (decodeActWkb c)).map (actDecoded rt)).getD i none = none := by
        rw [e2, hrow2, e1n]
        rfl
      refine ⟨by rw [e1n, e2n], ?_⟩
      intro g1 g2 hg1 _
      rw [e1n] at hg1
      exact Option.noConfusion hg1
    · have hb : some b ∈ rows := by
        refine mem_of_getElem?_some (i := i) ?_
        rw [List.getElem?_eq_getElem hiR, hrow]
      have e1s : items1.getD i none = some (rt (dec b)) := by
        rw [e1, hrow]
        show actDecoded rt (decodeActWkb c (some b)) = some (rt (dec b))
        rw [decodeActWkb, hdec b hb]
        rfl
      have e2s : ((rows2.map (decodeActWkb c)).map (actDecoded rt)).getD i none =
          some (rt (rt (rt (dec b)))) := by
        rw [e2, hrow2, e1s]
        show actDecoded rt (decodeActWkb c (some (c.toWkb (rt (dec b))))) = _
        rw [decodeActWkb, hrt (rt (dec b))]
        rfl
      refine ⟨by rw [e1s, e2s]; simp, ?_⟩
      intro g1 g2 hg1 hg2
      rw [e1s] at hg1
      rw [e2s] at hg2
      obtain rfl := Option.some.inj hg1
      obtain rfl := Option.some.inj hg2
      exact htrans _ _ _ (htopo (rt (dec b))) (htopo (rt (rt (dec b))))

/-- Witness for C7: round trip on a concrete binary column (polygon, null,
point) under the concrete codec, with topological equality instantiated to
equality. -/
theorem claim_C7_witness :
    ∃ col1 items1 col2 items2,
      decode_series (F := Int) natCodec (.binary "b" [some [2, 5], none, some [0, 9]]) true =
        .ok (.geometry col1) ∧
      iterItems natCodec col1 = some items1 ∧
      encode_series (F := Int) natCodec (.geometry col1) false =
        some (.ok (.binary col1.name (items1.map (Option.map natCodec.toWkb)))) ∧
      decode_series (F := Int) natCodec
        (.binary col1.name (items1.map (Option.map natCodec.toWkb))) true =
        .ok (.geometry col2) ∧
      iterItems natCodec col2 = some items2 ∧
      items2.length = items1.length ∧
      ∀ i, i < items1.length →
        (items1.getD i none = none ↔ items2.getD i none = none) ∧
        ∀ g1 g2, items1.getD i none = some g1 → items2.getD i none = some g2 → g1 = g2 :=
  claim_C7 Int natCodec (fun g => g) Eq
    (fun b => if b = [2, 5] then Geometry.polygon 5 else Geometry.point 9)
    "b" [some [2, 5], none, some [0, 9]] true true
    (fun g => by cases g <;> rfl)
    (fun g => rfl)
    (fun a b d h1 h2 => h1.trans h2)
    (by
      intro b hb
      simp only [List.mem_cons, List.not_mem_nil, or_false, Option.some.injEq,
        reduceCtorEq, false_or] at hb
      rcases hb with rfl | rfl <;> rfl)
